import Mathlib

/-!
Verification development for the solvin control-plane CRUD layer.

The definitions below are a shallow embedding of the JavaScript data-access
modules (lib/model_provider_manager.js, lib/model_manager.js,
lib/agent_manager.js, lib/tasks.js), the template manager
(lib/template_manager.js) and the API route handlers
(pages/api/agent-roles.js, pages/api/models.js, pages/api/model-providers.js,
pages/api/tasks.js, pages/api/templates/import.js).

Modelling conventions:
- SQLite rows are records; a table is the list of its rows in insertion
  order, with AUTOINCREMENT modelled by an explicit next-id counter
  (AUTOINCREMENT ids start at 1).
- TEXT columns written by this code hold JavaScript strings, modelled as
  String; optional JS arguments are Option values, and the JS idiom
  x || d (undefined, null and the empty string are falsy) is orDefault.
- agent_roles.allowed_tools stores JSON.stringify of an array of strings and
  every reader decodes it with JSON.parse; since that encoding is injective
  the column is modelled directly as the decoded List String.
- supports_reasoning is stored as INTEGER 0/1 and modelled as Bool.
- UNIQUE constraints are enforced by SQLite: a statement that would violate
  one throws and changes nothing.  Operations that can throw return
  Except String DB.  Primary-key uniqueness is guaranteed by SQLite and is
  re-established as an invariant (WF below).
- ORDER BY is modelled by an insertion sort with the corresponding key;
  only the fact that sorting permutes the rows is used in proofs.
-/

namespace Solvin

/-- DEFAULT_TOOL in pages/api/agent-roles.js, and the literal string in
ensureDefaultTool of lib/agent_manager.js. -/
def DEFAULT_TOOL : String := "set_work_completed"

/-- JS x || d for an optional string argument: undefined, null and "" are
falsy and yield the default. -/
def orDefault (x : Option String) (d : String) : String :=
  match x with
  | none => d
  | some s => if s = "" then d else s

/-- JS truthiness of an optional string (null / undefined / "" are falsy). -/
def truthy : Option String → Bool
  | none => false
  | some s => s != ""

/-- JS template-literal rendering of a possibly-null string. -/
def jsStr : Option String → String
  | none => "null"
  | some s => s

/-- The ASCII whitespace characters JS String.prototype.trim removes (the
Unicode space classes are irrelevant to this repository). -/
def isWsChar (c : Char) : Bool :=
  c == ' ' || c == '\t' || c == '\n' || c == '\r'

/-- JS String.prototype.trim, modelled structurally on the character list so
that it reduces inside the kernel (String.trim itself is defined by
well-founded recursion). -/
def jsTrim (s : String) : String :=
  ⟨((s.data.dropWhile isWsChar).reverse.dropWhile isWsChar).reverse⟩

/-- Structural lexicographic comparison of character lists (SQLite BINARY
collation; on UTF-8 text byte order and code-point order agree).  Defined
structurally so it reduces inside the kernel. -/
def strLtList : List Char → List Char → Bool
  | [], [] => false
  | [], _ :: _ => true
  | _ :: _, [] => false
  | a :: as, b :: bs => if a = b then strLtList as bs else decide (a.val.toNat < b.val.toNat)

/-- Strict ORDER BY comparison on TEXT columns. -/
def strLtB (s t : String) : Bool := strLtList s.data t.data

/-- Reflexive ORDER BY comparison on TEXT columns. -/
def strLeB (s t : String) : Bool := strLtB s t || s == t

/-- Insertion step for the insertion sort used to model ORDER BY. -/
def insertSorted (le : α → α → Bool) (a : α) : List α → List α
  | [] => [a]
  | b :: bs => if le a b then a :: b :: bs else b :: insertSorted le a bs

/-- Insertion sort used to model ORDER BY; only its permutation property is
used in the proofs. -/
def sortBy (le : α → α → Bool) : List α → List α
  | [] => []
  | a :: as => insertSorted le a (sortBy le as)

theorem insertSorted_perm (le : α → α → Bool) (a : α) (l : List α) :
    (insertSorted le a l).Perm (a :: l) := by
  induction l with
  | nil => simp [insertSorted]
  | cons b bs ih =>
    simp only [insertSorted]
    by_cases h : le a b
    · simp [h]
    · simp only [h, if_neg, Bool.false_eq_true, if_false]
      exact ((ih.cons b).trans (List.Perm.swap a b bs))

theorem sortBy_perm (le : α → α → Bool) (l : List α) : (sortBy le l).Perm l := by
  induction l with
  | nil => simp [sortBy]
  | cons a as ih => exact (insertSorted_perm le a (sortBy le as)).trans (ih.cons a)

/-- Row of the model_providers table. -/
structure Provider where
  id : Nat
  provider_name : String
  display_name : String
  extra_info : String
deriving DecidableEq, Repr

/-- Row of the models table. -/
structure Model where
  id : Nat
  provider_id : Nat
  model_name : String
  display_name : String
  extra_info : String
  supports_reasoning : Bool
deriving DecidableEq, Repr

/-- Row of the agent_roles table (allowed_tools stored decoded, see header). -/
structure AgentRole where
  id : Nat
  agent_role : String
  agent_description : String
  allowed_tools : List String
  default_developer_prompt : String
  default_user_prompt : String
  model_id : Option Nat
  reasoning_level : String
  tool_choice : String
deriving DecidableEq, Repr

/-- Row of the tasks table. -/
structure Task where
  id : Nat
  task_name : String
  task_prompt : String
deriving DecidableEq, Repr

/-- The shared SQLite database: the four tables plus their AUTOINCREMENT
counters. -/
structure DB where
  providers : List Provider
  models : List Model
  agents : List AgentRole
  tasks : List Task
  nextProviderId : Nat
  nextModelId : Nat
  nextAgentId : Nat
  nextTaskId : Nat
deriving DecidableEq, Repr

/-- A freshly created database (AUTOINCREMENT counters start at 1). -/
def emptyDB : DB := ⟨[], [], [], [], 1, 1, 1, 1⟩

/-! ## lib/model_provider_manager.js -/

/-- Argument object of createOrUpdateProvider. -/
structure ProviderArgs where
  id : Option Nat
  provider_name : String
  display_name : Option String
  extra_info : Option String

/-- safeDisplayName of createOrUpdateProvider:
display_name && display_name.trim() !== '' ? display_name : provider_name. -/
def safeDisplayName (display_name : Option String) (provider_name : String) : String :=
  match display_name with
  | some s => if s != "" && jsTrim s != "" then s else provider_name
  | none => provider_name

/-- listProviders: SELECT * FROM model_providers
ORDER BY display_name, provider_name. -/
def listProviders (db : DB) : List Provider :=
  sortBy (fun p q =>
    if p.display_name = q.display_name then strLeB p.provider_name q.provider_name
    else strLtB p.display_name q.display_name) db.providers

/-- createOrUpdateProvider: with an id, UPDATE by primary key (zero rows when
the id is absent); without an id, INSERT ... ON CONFLICT(provider_name)
DO UPDATE SET display_name, extra_info. -/
def createOrUpdateProvider (db : DB) (a : ProviderArgs) : Except String DB :=
  let safeD := safeDisplayName a.display_name a.provider_name
  match a.id with
  | some i =>
    if db.providers.any (fun p => p.id == i) then
      if db.providers.any (fun p => p.id != i && p.provider_name == a.provider_name) then
        .error "UNIQUE constraint failed: model_providers.provider_name"
      else
        .ok { db with providers := db.providers.map (fun p =>
          if p.id == i then
            { p with provider_name := a.provider_name, display_name := safeD,
                     extra_info := orDefault a.extra_info "" }
          else p) }
    else .ok db
  | none =>
    if db.providers.any (fun p => p.provider_name == a.provider_name) then
      .ok { db with providers := db.providers.map (fun p =>
        if p.provider_name == a.provider_name then
          { p with display_name := safeD, extra_info := orDefault a.extra_info "" }
        else p) }
    else
      .ok { db with
        providers := db.providers ++
          [⟨db.nextProviderId, a.provider_name, safeD, orDefault a.extra_info ""⟩],
        nextProviderId := db.nextProviderId + 1 }

/-- getProviderById: SELECT * FROM model_providers WHERE id = ?. -/
def getProviderById (db : DB) (i : Nat) : Option Provider :=
  db.providers.find? (fun p => p.id == i)

/-- deleteProvider: DELETE FROM model_providers WHERE id = ?. -/
def deleteProvider (db : DB) (i : Nat) : DB :=
  { db with providers := db.providers.filter (fun p => p.id != i) }

/-! ## lib/model_manager.js -/

/-- Argument object of createOrUpdateModel with its JS defaults:
display_name defaults to model_name, extra_info to "", supports_reasoning
to 1; sr = supports_reasoning ? 1 : 0. -/
structure ModelArgs where
  id : Option Nat
  provider_id : Nat
  model_name : String
  display_name : Option String
  extra_info : Option String
  supports_reasoning : Option Bool

def modelDisplay (a : ModelArgs) : String :=
  match a.display_name with
  | none => a.model_name
  | some s => s

def modelSr (a : ModelArgs) : Bool :=
  match a.supports_reasoning with
  | none => true
  | some b => b

/-- createOrUpdateModel: with an id, UPDATE by primary key (zero rows when the
id is absent); without an id, INSERT ... ON CONFLICT(provider_id, model_name)
DO UPDATE SET display_name, extra_info, supports_reasoning. -/
def createOrUpdateModel (db : DB) (a : ModelArgs) : Except String DB :=
  match a.id with
  | some i =>
    if db.models.any (fun m => m.id == i) then
      if db.models.any (fun m =>
          m.id != i && m.provider_id == a.provider_id && m.model_name == a.model_name) then
        .error "UNIQUE constraint failed: models.provider_id, models.model_name"
      else
        .ok { db with models := db.models.map (fun m =>
          if m.id == i then
            { m with provider_id := a.provider_id, model_name := a.model_name,
                     display_name := modelDisplay a, extra_info := orDefault a.extra_info "",
                     supports_reasoning := modelSr a }
          else m) }
    else .ok db
  | none =>
    if db.models.any (fun m =>
        m.provider_id == a.provider_id && m.model_name == a.model_name) then
      .ok { db with models := db.models.map (fun m =>
        if m.provider_id == a.provider_id && m.model_name == a.model_name then
          { m with display_name := modelDisplay a, extra_info := orDefault a.extra_info "",
                   supports_reasoning := modelSr a }
        else m) }
    else
      .ok { db with
        models := db.models ++
          [⟨db.nextModelId, a.provider_id, a.model_name, modelDisplay a,
            orDefault a.extra_info "", modelSr a⟩],
        nextModelId := db.nextModelId + 1 }

/-- getModelById base row (the JS version LEFT JOINs provider columns on top;
the fields used by callers here all come from the models row). -/
def getModelById (db : DB) (i : Nat) : Option Model :=
  db.models.find? (fun m => m.id == i)

/-- listModels: SELECT * FROM models ORDER BY id. -/
def listModels (db : DB) : List Model :=
  sortBy (fun m n => decide (m.id ≤ n.id)) db.models

/-- deleteModel: DELETE FROM models WHERE id = ?. -/
def deleteModel (db : DB) (i : Nat) : DB :=
  { db with models := db.models.filter (fun m => m.id != i) }

/-- Row shape of listModelsWithProviderInfo (models LEFT JOIN
model_providers; the provider columns are NULL for a dangling provider_id). -/
structure ModelJoinRow where
  id : Nat
  provider_id : Nat
  model_name : String
  display_name : String
  extra_info : String
  supports_reasoning : Bool
  provider_name : Option String
  provider_display_name : Option String
deriving DecidableEq, Repr

/-- ORDER BY provider_display_name, models.model_name (SQLite sorts NULL
first ascending). -/
def modelJoinLe (m n : ModelJoinRow) : Bool :=
  match m.provider_display_name, n.provider_display_name with
  | none, none => strLeB m.model_name n.model_name
  | none, some _ => true
  | some _, none => false
  | some d, some e =>
    if d = e then strLeB m.model_name n.model_name else strLtB d e

/-- listModelsWithProviderInfo: models LEFT JOIN model_providers ON
models.provider_id = model_providers.id, ORDER BY provider_display_name,
model_name. -/
def listModelsWithProviderInfo (db : DB) : List ModelJoinRow :=
  sortBy modelJoinLe (db.models.map (fun m =>
    let p := getProviderById db m.provider_id
    ⟨m.id, m.provider_id, m.model_name, m.display_name, m.extra_info,
      m.supports_reasoning, p.map (·.provider_name), p.map (·.display_name)⟩))

/-! ## lib/agent_manager.js -/

/-- ensureDefaultTool: copy the array (a non-array argument, e.g. an omitted
one, becomes []) and push DEFAULT_TOOL unless already included. -/
def ensureDefaultTool (tools : Option (List String)) : List String :=
  let arr := match tools with
    | some ts => ts
    | none => []
  if DEFAULT_TOOL ∈ arr then arr else arr ++ [DEFAULT_TOOL]

/-- Argument object of setAgentDetails; model_id !== undefined ? model_id :
null collapses undefined and null, so a single Option Nat suffices. -/
structure AgentArgs where
  agent_role : String
  agent_description : Option String
  allowed_tools : Option (List String)
  default_developer_prompt : Option String
  default_user_prompt : Option String
  model_id : Option Nat
  reasoning_level : Option String
  tool_choice : Option String

/-- getAgentByType: SELECT * FROM agent_roles WHERE agent_role = ?. -/
def getAgentByType (db : DB) (agent_role : String) : Option AgentRole :=
  db.agents.find? (fun r => r.agent_role == agent_role)

/-- setAgentDetails: throws when agent_role is falsy; otherwise UPDATE the
row with that agent_role if one exists, else INSERT, always storing
ensureDefaultTool of the tools and the || defaults of the other fields. -/
def setAgentDetails (db : DB) (a : AgentArgs) : Except String DB :=
  if a.agent_role = "" then .error "agent_role is required"
  else
    let finalTools := ensureDefaultTool a.allowed_tools
    match getAgentByType db a.agent_role with
    | some _ =>
      .ok { db with agents := db.agents.map (fun r =>
        if r.agent_role == a.agent_role then
          { r with agent_description := orDefault a.agent_description "",
                   allowed_tools := finalTools,
                   default_developer_prompt := orDefault a.default_developer_prompt "",
                   default_user_prompt := orDefault a.default_user_prompt "",
                   model_id := a.model_id,
                   reasoning_level := orDefault a.reasoning_level "medium",
                   tool_choice := orDefault a.tool_choice "auto" }
        else r) }
    | none =>
      .ok { db with
        agents := db.agents ++
          [⟨db.nextAgentId, a.agent_role, orDefault a.agent_description "",
            finalTools, orDefault a.default_developer_prompt "",
            orDefault a.default_user_prompt "", a.model_id,
            orDefault a.reasoning_level "medium", orDefault a.tool_choice "auto"⟩],
        nextAgentId := db.nextAgentId + 1 }

/-- setAllowedTools: UPDATE agent_roles SET allowed_tools = ? WHERE
agent_role = ? with the sentinel re-inserted first. -/
def setAllowedTools (db : DB) (agent_role : String) (tools : Option (List String)) : DB :=
  { db with agents := db.agents.map (fun r =>
    if r.agent_role == agent_role then
      { r with allowed_tools := ensureDefaultTool tools }
    else r) }

/-- setDefaultPrompts: UPDATE of the two prompt columns by agent_role. -/
def setDefaultPrompts (db : DB) (agent_role : String)
    (developerPrompt userPrompt : Option String) : DB :=
  { db with agents := db.agents.map (fun r =>
    if r.agent_role == agent_role then
      { r with default_developer_prompt := orDefault developerPrompt "",
               default_user_prompt := orDefault userPrompt "" }
    else r) }

/-- listAgentTypes without model info: SELECT * FROM agent_roles ORDER BY id. -/
def listAgentTypes (db : DB) : List AgentRole :=
  sortBy (fun a b => decide (a.id ≤ b.id)) db.agents

/-- Row shape of listAgentTypes({withModelInfo:true}): agent_roles LEFT JOIN
models LEFT JOIN model_providers, ORDER BY agent_roles.id. -/
structure AgentJoinRow where
  row : AgentRole
  model_name : Option String
  model_display_name : Option String
  provider_display_name : Option String
  provider_name : Option String
deriving DecidableEq, Repr

/-- listAgentTypes({withModelInfo:true}). -/
def listAgentTypesWithModelInfo (db : DB) : List AgentJoinRow :=
  (listAgentTypes db).map (fun a =>
    let m := a.model_id.bind (getModelById db)
    let p := m.bind (fun mo => getProviderById db mo.provider_id)
    ⟨a, m.map (·.model_name), m.map (·.display_name),
      p.map (·.display_name), p.map (·.provider_name)⟩)

/-- deleteAgentType: DELETE FROM agent_roles WHERE agent_role = ?. -/
def deleteAgentType (db : DB) (agent_role : String) : DB :=
  { db with agents := db.agents.filter (fun r => r.agent_role != agent_role) }

/-! ## lib/tasks.js -/

/-- getTask: SELECT * FROM tasks WHERE task_name = ?. -/
def getTask (db : DB) (task_name : String) : Option Task :=
  db.tasks.find? (fun t => t.task_name == task_name)

/-- getAllTasks: SELECT * FROM tasks ORDER BY id. -/
def getAllTasks (db : DB) : List Task :=
  sortBy (fun t u => decide (t.id ≤ u.id)) db.tasks

/-- createTask: a plain INSERT; task_name is UNIQUE NOT NULL, so inserting an
existing name throws a constraint error and changes nothing. -/
def createTask (db : DB) (task_name task_prompt : String) : Except String DB :=
  if db.tasks.any (fun t => t.task_name == task_name) then
    .error "UNIQUE constraint failed: tasks.task_name"
  else
    .ok { db with
      tasks := db.tasks ++ [⟨db.nextTaskId, task_name, task_prompt⟩],
      nextTaskId := db.nextTaskId + 1 }

/-- updateTask: UPDATE by id, returning the changes count; renaming onto an
existing other row's task_name violates UNIQUE and throws. -/
def updateTask (db : DB) (i : Nat) (task_name task_prompt : String) :
    Except String (DB × Nat) :=
  let matched := db.tasks.filter (fun t => t.id == i)
  if matched.isEmpty then .ok (db, 0)
  else if db.tasks.any (fun t => t.id != i && t.task_name == task_name) then
    .error "UNIQUE constraint failed: tasks.task_name"
  else
    .ok ({ db with tasks := db.tasks.map (fun t =>
      if t.id == i then { t with task_name := task_name, task_prompt := task_prompt }
      else t) }, matched.length)

/-- deleteTask: DELETE FROM tasks WHERE id = ?, returning the changes count. -/
def deleteTask (db : DB) (i : Nat) : DB × Nat :=
  ({ db with tasks := db.tasks.filter (fun t => t.id != i) },
   (db.tasks.filter (fun t => t.id == i)).length)

/-! ## lib/template_manager.js -/

/-- providers.yaml entry. -/
structure ProviderY where
  provider_name : String
  display_name : String
  extra_info : String
deriving DecidableEq, Repr

/-- models.yaml entry (provider_name is NULL for a dangling provider_id). -/
structure ModelY where
  provider_name : Option String
  model_name : String
  display_name : String
  extra_info : String
  supports_reasoning : Bool
deriving DecidableEq, Repr

/-- agents.yaml entry. -/
structure AgentY where
  agent_role : String
  agent_description : String
  allowed_tools : List String
  default_developer_prompt : String
  default_user_prompt : String
  reasoning_level : String
  tool_choice : String
  provider_name : Option String
  model_name : Option String
deriving DecidableEq, Repr

/-- tasks.yaml entry. -/
structure TaskY where
  task_name : String
  task_prompt : String
deriving DecidableEq, Repr

/-- The four YAML files of a template folder. -/
structure Template where
  providers : List ProviderY
  models : List ModelY
  agents : List AgentY
  tasks : List TaskY
deriving DecidableEq, Repr

/-- exportTemplate: projects each table (in fixed order and with its listing
order) onto its YAML file; the stored allowed_tools JSON is decoded
(a.allowed_tools ? JSON.parse(a.allowed_tools) : []) and supports_reasoning
is coerced with Boolean(...). -/
def exportTemplate (db : DB) : Template where
  providers := (listProviders db).map (fun p =>
    ⟨p.provider_name, p.display_name, p.extra_info⟩)
  models := (listModelsWithProviderInfo db).map (fun m =>
    ⟨m.provider_name, m.model_name, m.display_name, m.extra_info, m.supports_reasoning⟩)
  agents := (listAgentTypesWithModelInfo db).map (fun a =>
    ⟨a.row.agent_role, a.row.agent_description, a.row.allowed_tools,
      a.row.default_developer_prompt, a.row.default_user_prompt,
      a.row.reasoning_level, a.row.tool_choice, a.provider_name, a.model_name⟩)
  tasks := (getAllTasks db).map (fun t => ⟨t.task_name, t.task_prompt⟩)

/-- Lookup in a JS Map built with new Map(pairs): a later pair with the same
key overwrites an earlier one. -/
def mapGet (m : List (String × Nat)) (k : String) : Option Nat :=
  (m.reverse.find? (fun e => e.1 == k)).map (·.2)

/-- provMap: new Map(listProviders().map(p => [p.provider_name, p.id])). -/
def mkProvMap (db : DB) : List (String × Nat) :=
  (listProviders db).map (fun p => (p.provider_name, p.id))

/-- modelMap key: the template literal provider_name + ":" + model_name
(a NULL provider renders as the string null). -/
def modelKey (provider_name : Option String) (model_name : String) : String :=
  jsStr provider_name ++ ":" ++ model_name

/-- modelMap: new Map over listModelsWithProviderInfo keyed by
provider_name:model_name. -/
def mkModelMap (db : DB) : List (String × Nat) :=
  (listModelsWithProviderInfo db).map (fun m => (modelKey m.provider_name m.model_name, m.id))

/-- provMap.get(provider_name): looking up the JS null value in a Map with
string keys always misses. -/
def provLookup (m : List (String × Nat)) : Option String → Option Nat
  | none => none
  | some s => mapGet m s

/-- The providers loop of importTemplate; an exception aborts the rest of the
loop, keeping the rows already committed. -/
def importProviders : List ProviderY → DB → DB × Option String
  | [], db => (db, none)
  | y :: ys, db =>
    match createOrUpdateProvider db
        ⟨none, y.provider_name, some y.display_name, some y.extra_info⟩ with
    | .ok db2 => importProviders ys db2
    | .error e => (db, some e)

/-- The models loop of importTemplate: a provider_name absent from provMap
throws, aborting the rest of the loop. -/
def importModels (pm : List (String × Nat)) : List ModelY → DB → DB × Option String
  | [], db => (db, none)
  | y :: ys, db =>
    match provLookup pm y.provider_name with
    | none =>
      (db, some ("[import][model] Provider not found for \"" ++ jsStr y.provider_name ++ "\""))
    | some provider_id =>
      match createOrUpdateModel db
          ⟨none, provider_id, y.model_name, some y.display_name, some y.extra_info,
            some y.supports_reasoning⟩ with
      | .ok db2 => importModels pm ys db2
      | .error e => (db, some e)

/-- The model_id an agents.yaml entry resolves to: null unless both name
parts are truthy and the joined key is in modelMap. -/
def resolveRef (mm : List (String × Nat)) (y : AgentY) : Option Nat :=
  if truthy y.provider_name && truthy y.model_name then
    mapGet mm (jsStr y.provider_name ++ ":" ++ jsStr y.model_name)
  else none

/-- The agents loop of importTemplate: an unresolved provider_name/model_name
pair only logs a warning and stores model_id = null. -/
def importAgents (mm : List (String × Nat)) : List AgentY → DB → DB × Option String
  | [], db => (db, none)
  | y :: ys, db =>
    match setAgentDetails db
        ⟨y.agent_role, some y.agent_description, some y.allowed_tools,
          some y.default_developer_prompt, some y.default_user_prompt, resolveRef mm y,
          some y.reasoning_level, some y.tool_choice⟩ with
    | .ok db2 => importAgents mm ys db2
    | .error e => (db, some e)

/-- The tasks loop of importTemplate (createTask, a plain INSERT). -/
def importTasks : List TaskY → DB → DB × Option String
  | [], db => (db, none)
  | y :: ys, db =>
    match createTask db y.task_name y.task_prompt with
    | .ok db2 => importTasks ys db2
    | .error e => (db, some e)

/-- The wipe phase of importTemplate: list every row of each table and delete
it by its key, in the order providers, models, agents, tasks. -/
def wipeAll (db : DB) : DB :=
  let db1 := (listProviders db).foldl (fun d p => deleteProvider d p.id) db
  let db2 := (listModelsWithProviderInfo db1).foldl (fun d m => deleteModel d m.id) db1
  let db3 := (listAgentTypes db2).foldl (fun d a => deleteAgentType d a.agent_role) db2
  (getAllTasks db3).foldl (fun d t => (deleteTask d t.id).1) db3

/-- importTemplate: optional wipe, then the four loops in dependency order;
the first uncaught exception aborts the remaining stages but keeps every row
already committed (no transaction). -/
def importTemplate (t : Template) (db : DB) (wipe : Bool) : DB × Option String :=
  let db0 := if wipe then wipeAll db else db
  match importProviders t.providers db0 with
  | (db1, some e) => (db1, some e)
  | (db1, none) =>
    let pm := mkProvMap db1
    match importModels pm t.models db1 with
    | (db2, some e) => (db2, some e)
    | (db2, none) =>
      let mm := mkModelMap db2
      match importAgents mm t.agents db2 with
      | (db3, some e) => (db3, some e)
      | (db3, none) => importTasks t.tasks db3

/-! ## pages/api/agent-roles.js (agentic-os frontend) -/

/-- Agent record as returned by the agent-roles API: stored rows keep their
id, the synthesized blank record has none. -/
structure AgentOut where
  id : Option Nat
  agent_role : String
  agent_description : String
  allowed_tools : List String
  default_developer_prompt : String
  default_user_prompt : String
  model_id : Option Nat
  model_name : String
  reasoning_level : String
  tool_choice : String
deriving DecidableEq, Repr

/-- makeBlankAgent: the placeholder returned for an unknown agent_role. -/
def makeBlankAgent (agent_role : String) : AgentOut where
  id := none
  agent_role := orDefault (some agent_role) ""
  agent_description := ""
  allowed_tools := [DEFAULT_TOOL]
  default_developer_prompt := ""
  default_user_prompt := ""
  model_id := none
  model_name := ""
  reasoning_level := ""
  tool_choice := "auto"

/-- JS truthiness of the model_id field (null and 0 are falsy; AUTOINCREMENT
ids start at 1, so 0 never denotes a row). -/
def truthyId : Option Nat → Bool
  | none => false
  | some i => i != 0

/-- normalizeReasoningLevel: blank unless the referenced model exists and
supports reasoning (m?.supports_reasoning ?? false). -/
def normalizeReasoningLevel (db : DB) (model_id : Option Nat) (storedLevel : String) :
    String :=
  if truthyId model_id then
    match getModelById db (model_id.getD 0) with
    | none => ""
    | some m => if m.supports_reasoning then storedLevel else ""
  else ""

/-- The model_name lookup both GET paths perform when rest.model_id is
truthy. -/
def lookupModelName (db : DB) (model_id : Option Nat) : String :=
  if truthyId model_id then
    match getModelById db (model_id.getD 0) with
    | none => ""
    | some m => m.model_name
  else ""

/-- Projection of a stored row onto the GET response record: tools re-pass
through ensureDefaultTool, model_name is looked up, reasoning_level is
normalized. -/
def agentRowOut (db : DB) (row : AgentRole) : AgentOut where
  id := some row.id
  agent_role := row.agent_role
  agent_description := row.agent_description
  allowed_tools := ensureDefaultTool (some row.allowed_tools)
  default_developer_prompt := row.default_developer_prompt
  default_user_prompt := row.default_user_prompt
  model_id := row.model_id
  model_name := lookupModelName db row.model_id
  reasoning_level := normalizeReasoningLevel db row.model_id row.reasoning_level
  tool_choice := row.tool_choice

/-- Response of GET /api/agent-roles: the single-fetch path fills agent, the
list path fills agentTypes. -/
structure AgentRolesGetResp where
  status : Nat
  agent : Option AgentOut
  agentTypes : Option (List AgentOut)
deriving DecidableEq, Repr

/-- GET handler of pages/api/agent-roles.js: with a truthy agent_role query
it fetches that row (or synthesizes a blank one, still HTTP 200); otherwise
it lists all rows. -/
def agentRolesGET (db : DB) (query_agent_role : Option String) : AgentRolesGetResp :=
  let listAll : AgentRolesGetResp :=
    ⟨200, none, some ((listAgentTypes db).map (agentRowOut db))⟩
  match query_agent_role with
  | some role =>
    if role = "" then listAll
    else
      match getAgentByType db role with
      | some row => ⟨200, some (agentRowOut db row), none⟩
      | none => ⟨200, some (makeBlankAgent role), none⟩
  | none => listAll

/-- Generic JSON reply of the CRUD handlers: status plus either a message or
an error field. -/
structure ApiResp where
  status : Nat
  message : Option String
  error : Option String
deriving DecidableEq, Repr

/-- Body of POST/PUT /api/agent-roles. -/
structure AgentRolesBody where
  agent_role : Option String
  agent_description : Option String
  allowed_tools : Option (List String)
  default_developer_prompt : Option String
  default_user_prompt : Option String
  model_id : Option Nat
  reasoning_level : Option String
  tool_choice : Option String

/-- POST (and identically PUT) handler of pages/api/agent-roles.js: 400
without an agent_role, otherwise inject the default tool and call
setAgentDetails; success is 200, a throw is a fixed 500 error. -/
def agentRolesPOST (db : DB) (body : AgentRolesBody) : ApiResp × DB :=
  if !truthy body.agent_role then
    (⟨400, none, some "agent_role is required."⟩, db)
  else
    let finalTools := ensureDefaultTool body.allowed_tools
    match setAgentDetails db
        ⟨jsStr body.agent_role, body.agent_description, some finalTools,
          body.default_developer_prompt, body.default_user_prompt, body.model_id,
          body.reasoning_level, body.tool_choice⟩ with
    | .ok db2 => (⟨200, some "Agent role created/updated successfully.", none⟩, db2)
    | .error _ => (⟨500, none, some "Error creating/updating agent role."⟩, db)

/-! ## pages/api/models.js and pages/api/model-providers.js -/

/-- Body of POST/PUT /api/models (the handler never passes display_name). -/
structure ModelsBody where
  id : Option Nat
  provider_id : Option Nat
  model_name : Option String
  extra_info : Option String
  supports_reasoning : Option Bool

/-- POST/PUT handler of pages/api/models.js: 400 when provider_id or
model_name is falsy, otherwise createOrUpdateModel; success is 200 with a
created/updated message, a throw is a fixed 500 error. -/
def modelsPOST (db : DB) (body : ModelsBody) : ApiResp × DB :=
  if !(truthyId body.provider_id && truthy body.model_name) then
    (⟨400, none, some "provider_id and model_name are required."⟩, db)
  else
    match createOrUpdateModel db
        ⟨body.id, body.provider_id.getD 0, jsStr body.model_name, none,
          body.extra_info, body.supports_reasoning⟩ with
    | .ok db2 => (⟨200, some "Model created/updated successfully.", none⟩, db2)
    | .error _ => (⟨500, none, some "Error updating model."⟩, db)

/-- Body of POST/PUT /api/model-providers (display_name is never passed). -/
structure ProvidersBody where
  id : Option Nat
  provider_name : Option String
  extra_info : Option String

/-- POST/PUT handler of pages/api/model-providers.js. -/
def modelProvidersPOST (db : DB) (body : ProvidersBody) : ApiResp × DB :=
  if !truthy body.provider_name then
    (⟨400, none, some "provider_name is required."⟩, db)
  else
    match createOrUpdateProvider db
        ⟨body.id, jsStr body.provider_name, none, body.extra_info⟩ with
    | .ok db2 => (⟨200, some "Provider created/updated successfully.", none⟩, db2)
    | .error _ => (⟨500, none, some "Error updating model provider."⟩, db)

/-! ## pages/api/tasks.js and pages/api/templates/import.js -/

/-- POST path of pages/api/tasks.js: 400 without task_name, 201 on success;
the surrounding catch converts any throw into a fixed 500
"Internal server error." body. -/
def tasksPOST (db : DB) (task_name task_prompt : Option String) : ApiResp × DB :=
  match task_name with
  | none => (⟨400, none, some "task_name is required."⟩, db)
  | some name =>
    if name = "" then (⟨400, none, some "task_name is required."⟩, db)
    else
      match createTask db name (orDefault task_prompt "") with
      | .ok db2 => (⟨201, some "Task created successfully.", none⟩, db2)
      | .error _ => (⟨500, none, some "Internal server error."⟩, db)

/-- POST handler of pages/api/templates/import.js: importTemplate with
wipe true; a throw becomes a fixed 500 error, success a 200 message. -/
def templatesImportPOST (t : Template) (db : DB) (templateName : String) :
    ApiResp × DB :=
  match importTemplate t db true with
  | (db2, some _) =>
    (⟨500, none, some "Failed to import template. Check server logs for details."⟩, db2)
  | (db2, none) =>
    (⟨200, some ("Imported template \"" ++ templateName ++ "\" successfully."), none⟩, db2)

/-! ## General lemmas about the operations -/

theorem mem_ensureDefaultTool (t : Option (List String)) :
    DEFAULT_TOOL ∈ ensureDefaultTool t := by
  cases t with
  | none => simp [ensureDefaultTool]
  | some ts =>
    simp only [ensureDefaultTool]
    split
    · next h => exact h
    · simp

/-- Filtering after a row update that neither changes the filter key nor the
rows that pass the filter is the same as filtering the original rows. -/
theorem filter_map_update (l : List α) (u : α → α) (p : α → Bool)
    (hkeep : ∀ a, p (u a) = p a) (hid : ∀ a, p a = true → u a = a) :
    (l.map u).filter p = l.filter p := by
  induction l with
  | nil => rfl
  | cons a l ih =>
    simp only [List.map_cons, List.filter_cons, hkeep a]
    by_cases h : p a = true
    · rw [if_pos h, if_pos h, hid a h, ih]
    · rw [if_neg h, if_neg h, ih]

theorem orDefault_ne {x : Option String} {d : String} (hd : d ≠ "") :
    orDefault x d ≠ "" := by
  cases x with
  | none => simpa [orDefault]
  | some s =>
    by_cases hs : s = "" <;> simp [orDefault, hs, hd]

theorem setAgentDetails_ok_role {db db2 : DB} {a : AgentArgs}
    (h : setAgentDetails db a = .ok db2) : a.agent_role ≠ "" := by
  intro he
  simp [setAgentDetails, he] at h

/-- Workhorse description of setAgentDetails: every row of the result whose
agent_role is the written one carries exactly the normalized written fields. -/
theorem setAgentDetails_rows {db db2 : DB} {a : AgentArgs}
    (h : setAgentDetails db a = .ok db2) :
    ∀ r ∈ db2.agents, r.agent_role = a.agent_role →
      r.agent_description = orDefault a.agent_description "" ∧
      r.allowed_tools = ensureDefaultTool a.allowed_tools ∧
      r.default_developer_prompt = orDefault a.default_developer_prompt "" ∧
      r.default_user_prompt = orDefault a.default_user_prompt "" ∧
      r.model_id = a.model_id ∧
      r.reasoning_level = orDefault a.reasoning_level "medium" ∧
      r.tool_choice = orDefault a.tool_choice "auto" := by
  have hrole := setAgentDetails_ok_role h
  unfold setAgentDetails at h
  rw [if_neg hrole] at h
  intro r hr hrrole
  rcases hfind : getAgentByType db a.agent_role with _ | row
  · rw [hfind] at h
    simp only [Except.ok.injEq] at h
    subst h
    simp only [List.mem_append, List.mem_singleton] at hr
    rcases hr with hr | hr
    · exfalso
      have := List.find?_eq_none.mp hfind r hr
      simp [hrrole] at this
    · subst hr
      simp
  · rw [hfind] at h
    simp only [Except.ok.injEq] at h
    subst h
    simp only [List.mem_map] at hr
    rcases hr with ⟨r0, hr0, hup⟩
    by_cases hc : r0.agent_role == a.agent_role
    · rw [if_pos hc] at hup
      subst hup
      simp
    · rw [if_neg (by simpa using hc)] at hup
      subst hup
      exact absurd hrrole (by simpa using hc)

/-- Rows of other agent_roles are untouched by setAgentDetails. -/
theorem setAgentDetails_frame {db db2 : DB} {a : AgentArgs}
    (h : setAgentDetails db a = .ok db2) (role : String) (hne : role ≠ a.agent_role) :
    db2.agents.filter (fun r => r.agent_role == role) =
      db.agents.filter (fun r => r.agent_role == role) := by
  have hrole := setAgentDetails_ok_role h
  unfold setAgentDetails at h
  rw [if_neg hrole] at h
  have hne2 : a.agent_role ≠ role := Ne.symm hne
  rcases hfind : getAgentByType db a.agent_role with _ | row
  · rw [hfind] at h
    simp only [Except.ok.injEq] at h
    subst h
    simp [List.filter_append, hne2]
  · rw [hfind] at h
    simp only [Except.ok.injEq] at h
    subst h
    exact filter_map_update _ _ _
      (fun r => by split <;> rfl)
      (fun r hp => by
        rw [if_neg]
        simp only [beq_iff_eq] at hp ⊢
        rw [hp]
        exact hne2 ∘ Eq.symm)

/-! ## C2: the sentinel tool survives every agent upsert and read -/

/-- C2: for every agent-role upsert through setAgentDetails (the common path
of POST/PUT /agent-roles and of template import) and every input
allowed_tools value, every stored row for that agent_role contains the
sentinel completion tool set_work_completed, and a subsequent GET of that
agent role returns an allowed_tools list containing it as well. -/
theorem agent_upsert_keeps_sentinel_tool (db db2 : DB) (a : AgentArgs)
    (h : setAgentDetails db a = .ok db2) :
    (∀ r ∈ db2.agents, r.agent_role = a.agent_role → DEFAULT_TOOL ∈ r.allowed_tools) ∧
    (∃ out : AgentOut,
      agentRolesGET db2 (some a.agent_role) = ⟨200, some out, none⟩ ∧
      DEFAULT_TOOL ∈ out.allowed_tools) := by
  constructor
  · intro r hr hrole
    have := (setAgentDetails_rows h r hr hrole).2.1
    rw [this]
    exact mem_ensureDefaultTool _
  · have hrole := setAgentDetails_ok_role h
    rcases hfind : getAgentByType db2 a.agent_role with _ | row
    · exact ⟨makeBlankAgent a.agent_role, by simp [agentRolesGET, hrole, hfind],
        by simp [makeBlankAgent]⟩
    · exact ⟨agentRowOut db2 row, by simp [agentRolesGET, hrole, hfind],
        by simpa [agentRowOut] using mem_ensureDefaultTool (some row.allowed_tools)⟩

def aC2 : AgentArgs := ⟨"dev", none, some ["grep"], none, none, none, none, none⟩

def dbC2 : DB :=
  ⟨[], [], [⟨1, "dev", "", ["grep", "set_work_completed"], "", "", none, "medium", "auto"⟩],
    [], 1, 1, 2, 1⟩

theorem agent_upsert_keeps_sentinel_tool_witness :
    (∀ r ∈ dbC2.agents, r.agent_role = aC2.agent_role → DEFAULT_TOOL ∈ r.allowed_tools) ∧
    (∃ out : AgentOut,
      agentRolesGET dbC2 (some aC2.agent_role) = ⟨200, some out, none⟩ ∧
      DEFAULT_TOOL ∈ out.allowed_tools) :=
  agent_upsert_keeps_sentinel_tool emptyDB dbC2 aC2 rfl

/-! ## C3: reasoning_level is recomputed on the agent-role read path -/

/-- C3: GET /agent-roles returns rows through agentRowOut, on both the
single-fetch and list paths; agentRowOut blanks reasoning_level whenever
model_id is null or the referenced Model does not support reasoning, and
passes the stored value through when it does. -/
theorem reasoning_level_normalized_on_read (db : DB) (role : String) (row : AgentRole)
    (hrole : role ≠ "") (hfind : getAgentByType db role = some row) :
    agentRolesGET db (some role) = ⟨200, some (agentRowOut db row), none⟩ ∧
    agentRolesGET db none = ⟨200, none, some ((listAgentTypes db).map (agentRowOut db))⟩ ∧
    (∀ r : AgentRole, r.model_id = none → (agentRowOut db r).reasoning_level = "") ∧
    (∀ r : AgentRole, ∀ i m, r.model_id = some i → getModelById db i = some m →
      m.supports_reasoning = false → (agentRowOut db r).reasoning_level = "") ∧
    (∀ r : AgentRole, ∀ i m, r.model_id = some i → i ≠ 0 → getModelById db i = some m →
      m.supports_reasoning = true →
      (agentRowOut db r).reasoning_level = r.reasoning_level) := by
  refine ⟨by simp [agentRolesGET, hrole, hfind], by simp [agentRolesGET], ?_, ?_, ?_⟩
  · intro r hmid
    simp [agentRowOut, normalizeReasoningLevel, hmid, truthyId]
  · intro r i m hmid hget hsr
    by_cases hi : i = 0
    · simp [agentRowOut, normalizeReasoningLevel, hmid, hi, truthyId]
    · simp [agentRowOut, normalizeReasoningLevel, hmid, hi, truthyId, hget, hsr]
  · intro r i m hmid hi hget hsr
    simp [agentRowOut, normalizeReasoningLevel, hmid, hi, truthyId, hget, hsr]

def dbC3 : DB :=
  ⟨[⟨1, "p", "p", ""⟩], [⟨1, 1, "m", "m", "", false⟩],
    [⟨1, "qa", "", ["set_work_completed"], "", "", some 1, "high", "auto"⟩],
    [], 2, 2, 2, 1⟩

def rowC3 : AgentRole := ⟨1, "qa", "", ["set_work_completed"], "", "", some 1, "high", "auto"⟩

theorem reasoning_level_normalized_on_read_witness :
    agentRolesGET dbC3 (some "qa") = ⟨200, some (agentRowOut dbC3 rowC3), none⟩ ∧
    (agentRowOut dbC3 rowC3).reasoning_level = "" ∧ rowC3.reasoning_level = "high" := by
  have h := reasoning_level_normalized_on_read dbC3 "qa" rowC3 (by decide) rfl
  exact ⟨h.1, h.2.2.2.1 rowC3 1 ⟨1, 1, "m", "m", "", false⟩ rfl rfl rfl, rfl⟩

/-! ## C8: unknown agent_role synthesizes a blank record (corrected) -/

/-- C8 counterexample: GET /agent-roles?agent_role=nonexistent on an empty
store does answer 200 with a blank record, but its tool_choice field is
"auto", not empty, so the claim that all other fields are empty is false at
this concrete input. -/
theorem blank_agent_counterexample :
    agentRolesGET emptyDB (some "nonexistent") =
      ⟨200, some (makeBlankAgent "nonexistent"), none⟩ ∧
    (makeBlankAgent "nonexistent").tool_choice = "auto" ∧
    (makeBlankAgent "nonexistent").tool_choice ≠ "" := by
  refine ⟨rfl, rfl, by decide⟩

/-- C8 (amended): GET /agent-roles?agent_role=K for an unknown nonempty key
K responds 200 with a synthesized blank agent whose agent_role is K, whose
allowed_tools is exactly the sentinel singleton, whose string fields and
model reference are empty — except tool_choice, which is "auto". -/
theorem blank_agent_on_miss (db : DB) (role : String) (hrole : role ≠ "")
    (hmiss : getAgentByType db role = none) :
    agentRolesGET db (some role) = ⟨200, some (makeBlankAgent role), none⟩ ∧
    (makeBlankAgent role).agent_role = role ∧
    (makeBlankAgent role).allowed_tools = [DEFAULT_TOOL] ∧
    (makeBlankAgent role).agent_description = "" ∧
    (makeBlankAgent role).default_developer_prompt = "" ∧
    (makeBlankAgent role).default_user_prompt = "" ∧
    (makeBlankAgent role).model_id = none ∧
    (makeBlankAgent role).model_name = "" ∧
    (makeBlankAgent role).reasoning_level = "" ∧
    (makeBlankAgent role).tool_choice = "auto" := by
  refine ⟨by simp [agentRolesGET, hrole, hmiss], ?_, rfl, rfl, rfl, rfl, rfl, rfl, rfl, rfl⟩
  simp [makeBlankAgent, orDefault, hrole]

theorem blank_agent_on_miss_witness :
    agentRolesGET emptyDB (some "planner") = ⟨200, some (makeBlankAgent "planner"), none⟩ ∧
    (makeBlankAgent "planner").agent_role = "planner" :=
  have h := blank_agent_on_miss emptyDB "planner" (by decide) rfl
  ⟨h.1, h.2.1⟩

/-! ## C10: setAgentDetails always stores nonempty reasoning_level/tool_choice -/

/-- C10: every row written by setAgentDetails stores
reasoning_level || "medium" and tool_choice || "auto" — so both are always
nonempty and any falsy input (absent, null or the empty string a read of a
non-reasoning model returns) is silently replaced by the default. -/
theorem agent_write_defaults (db db2 : DB) (a : AgentArgs)
    (h : setAgentDetails db a = .ok db2) :
    ∀ r ∈ db2.agents, r.agent_role = a.agent_role →
      r.reasoning_level = orDefault a.reasoning_level "medium" ∧
      r.tool_choice = orDefault a.tool_choice "auto" ∧
      r.reasoning_level ≠ "" ∧ r.tool_choice ≠ "" ∧
      (a.reasoning_level = some "" ∨ a.reasoning_level = none →
        r.reasoning_level = "medium") ∧
      (a.tool_choice = some "" ∨ a.tool_choice = none → r.tool_choice = "auto") := by
  intro r hr hrole
  have hrow := setAgentDetails_rows h r hr hrole
  refine ⟨hrow.2.2.2.2.2.1, hrow.2.2.2.2.2.2, ?_, ?_, ?_, ?_⟩
  · rw [hrow.2.2.2.2.2.1]
    exact orDefault_ne (by decide)
  · rw [hrow.2.2.2.2.2.2]
    exact orDefault_ne (by decide)
  · rintro (hv | hv) <;> rw [hrow.2.2.2.2.2.1, hv] <;> rfl
  · rintro (hv | hv) <;> rw [hrow.2.2.2.2.2.2, hv] <;> rfl

def aC10 : AgentArgs := ⟨"writer", none, none, none, none, none, some "", none⟩

def dbC10 : DB :=
  ⟨[], [], [⟨1, "writer", "", ["set_work_completed"], "", "", none, "medium", "auto"⟩],
    [], 1, 1, 2, 1⟩

def rC10 : AgentRole := ⟨1, "writer", "", ["set_work_completed"], "", "", none, "medium", "auto"⟩

theorem agent_write_defaults_witness :
    rC10.reasoning_level = "medium" ∧ rC10.tool_choice = "auto" ∧
    rC10.reasoning_level ≠ "" := by
  have h := agent_write_defaults emptyDB dbC10 aC10 rfl rC10 (by simp [dbC10, rC10]) rfl
  exact ⟨h.2.2.2.2.1 (Or.inl rfl), h.2.2.2.2.2 (Or.inr rfl), h.2.2.1⟩

/-! ## C9: upsert with a phantom internal id silently updates nothing -/

/-- C9: createOrUpdateProvider / createOrUpdateModel called with an id that
matches no row leave the database unchanged without an error (the UPDATE
affects zero rows and no insert happens), and the POST/PUT handlers still
answer 200 with their created/updated success message. -/
theorem phantom_id_update_is_noop (db : DB) (pa : ProviderArgs) (ma : ModelArgs)
    (mb : ModelsBody) (pb : ProvidersBody) (i j k l : Nat)
    (hpa : pa.id = some i) (hi : ∀ p ∈ db.providers, p.id ≠ i)
    (hma : ma.id = some j) (hj : ∀ m ∈ db.models, m.id ≠ j)
    (hmb : mb.id = some k) (hk : ∀ m ∈ db.models, m.id ≠ k)
    (hmbp : truthyId mb.provider_id = true) (hmbn : truthy mb.model_name = true)
    (hpb : pb.id = some l) (hl : ∀ p ∈ db.providers, p.id ≠ l)
    (hpbn : truthy pb.provider_name = true) :
    createOrUpdateProvider db pa = .ok db ∧
    createOrUpdateModel db ma = .ok db ∧
    modelsPOST db mb = (⟨200, some "Model created/updated successfully.", none⟩, db) ∧
    modelProvidersPOST db pb =
      (⟨200, some "Provider created/updated successfully.", none⟩, db) := by
  have hanyP : ∀ n, (∀ p ∈ db.providers, p.id ≠ n) →
      db.providers.any (fun p => p.id == n) = false := by
    intro n hn
    simp only [List.any_eq_false, beq_iff_eq]
    exact hn
  have hanyM : ∀ n, (∀ m ∈ db.models, m.id ≠ n) →
      db.models.any (fun m => m.id == n) = false := by
    intro n hn
    simp only [List.any_eq_false, beq_iff_eq]
    exact hn
  have h1 : createOrUpdateProvider db pa = .ok db := by
    unfold createOrUpdateProvider
    rw [hpa]
    simp [hanyP i hi]
  have h2 : createOrUpdateModel db ma = .ok db := by
    unfold createOrUpdateModel
    rw [hma]
    simp [hanyM j hj]
  have h3 : createOrUpdateModel db
      ⟨mb.id, mb.provider_id.getD 0, jsStr mb.model_name, none,
        mb.extra_info, mb.supports_reasoning⟩ = .ok db := by
    unfold createOrUpdateModel
    rw [hmb]
    simp [hanyM k hk]
  have h4 : createOrUpdateProvider db
      ⟨pb.id, jsStr pb.provider_name, none, pb.extra_info⟩ = .ok db := by
    unfold createOrUpdateProvider
    rw [hpb]
    simp [hanyP l hl]
  refine ⟨h1, h2, ?_, ?_⟩
  · unfold modelsPOST
    rw [hmbp, hmbn]
    simp only [Bool.and_self, Bool.not_true, Bool.false_eq_true, if_false, h3]
  · unfold modelProvidersPOST
    rw [hpbn]
    simp only [Bool.not_true, Bool.false_eq_true, if_false, h4]

def dbC9 : DB := ⟨[⟨1, "p", "p", ""⟩], [⟨1, 1, "m", "m", "", true⟩], [], [], 2, 2, 1, 1⟩

theorem phantom_id_update_is_noop_witness :
    createOrUpdateProvider dbC9 ⟨some 99, "x", none, none⟩ = .ok dbC9 ∧
    modelsPOST dbC9 ⟨some 99, some 1, some "m2", none, none⟩ =
      (⟨200, some "Model created/updated successfully.", none⟩, dbC9) := by
  have h := phantom_id_update_is_noop dbC9 ⟨some 99, "x", none, none⟩
    ⟨some 99, 1, "m2", none, none, none⟩ ⟨some 99, some 1, some "m2", none, none⟩
    ⟨some 99, some "y", none⟩ 99 99 99 99 rfl (by decide) rfl (by decide) rfl (by decide)
    rfl rfl rfl (by decide) rfl
  exact ⟨h.1, h.2.2.1⟩

/-! ## C5: an unknown provider_name aborts the models loop -/

theorem createOrUpdateModel_insert_ok (db : DB) (a : ModelArgs) (h : a.id = none) :
    ∃ db2, createOrUpdateModel db a = .ok db2 := by
  rcases a with ⟨aid, pid, mn, dn, ei, sr⟩
  obtain rfl : aid = none := h
  simp only [createOrUpdateModel]
  split
  · exact ⟨_, rfl⟩
  · exact ⟨_, rfl⟩

/-- C5: if a models.yaml entry's provider_name misses the provider map, the
models loop throws the provider-not-found error there: the rows before it
are committed, the loop aborts, and no entry after it is written (the result
state is exactly the state after importing only the prefix). -/
theorem import_unknown_provider_aborts_models (pm : List (String × Nat))
    (pre post : List ModelY) (bad : ModelY) (db : DB)
    (hbad : provLookup pm bad.provider_name = none)
    (hpre : ∀ y ∈ pre, provLookup pm y.provider_name ≠ none) :
    importModels pm (pre ++ bad :: post) db =
      ((importModels pm pre db).1,
        some ("[import][model] Provider not found for \"" ++
          jsStr bad.provider_name ++ "\"")) := by
  revert hpre
  induction pre generalizing db with
  | nil =>
    intro _
    simp only [List.nil_append, importModels, hbad]
  | cons y ys ih =>
    intro hpre
    have hy := hpre y (List.mem_cons_self y ys)
    rcases hres : provLookup pm y.provider_name with _ | pid
    · exact absurd hres hy
    · obtain ⟨db2, hdb2⟩ := createOrUpdateModel_insert_ok db
        ⟨none, pid, y.model_name, some y.display_name, some y.extra_info,
          some y.supports_reasoning⟩ rfl
      simp only [List.cons_append, importModels, hres, hdb2]
      exact ih db2 (fun z hz => hpre z (List.mem_cons_of_mem y hz))

def preC5 : List ModelY := [⟨some "p", "m1", "m1", "", true⟩]

def badC5 : ModelY := ⟨some "zz", "m2", "m2", "", true⟩

def postC5 : List ModelY := [⟨some "p", "m3", "m3", "", true⟩]

theorem import_unknown_provider_aborts_models_witness :
    importModels [("p", 1)] (preC5 ++ badC5 :: postC5) emptyDB =
      ((importModels [("p", 1)] preC5 emptyDB).1,
        some "[import][model] Provider not found for \"zz\"") :=
  import_unknown_provider_aborts_models [("p", 1)] preC5 postC5 badC5 emptyDB rfl
    (by decide)

/-! ## C6: an unresolved agent model reference does not fail the import -/

theorem setAgentDetails_ok_of_role_ne (db : DB) (a : AgentArgs)
    (h : a.agent_role ≠ "") : ∃ db2, setAgentDetails db a = .ok db2 := by
  unfold setAgentDetails
  rw [if_neg h]
  rcases getAgentByType db a.agent_role with _ | row
  · exact ⟨_, rfl⟩
  · exact ⟨_, rfl⟩

/-- Agent rows whose agent_role is mentioned by no entry of the agents loop
are untouched by it. -/
theorem importAgents_role_frame (mm : List (String × Nat)) (role : String) :
    ∀ (ys : List AgentY) (db : DB), role ∉ ys.map AgentY.agent_role →
      (importAgents mm ys db).1.agents.filter (fun r => r.agent_role == role) =
        db.agents.filter (fun r => r.agent_role == role) := by
  intro ys
  induction ys with
  | nil => intro db _; rfl
  | cons y ys ih =>
    intro db hrole
    simp only [List.map_cons, List.mem_cons, not_or] at hrole
    rcases hset : setAgentDetails db
        ⟨y.agent_role, some y.agent_description, some y.allowed_tools,
          some y.default_developer_prompt, some y.default_user_prompt, resolveRef mm y,
          some y.reasoning_level, some y.tool_choice⟩ with e | db2
    · simp only [importAgents, hset]
    · simp only [importAgents, hset]
      rw [ih db2 hrole.2, setAgentDetails_frame hset role hrole.1]

/-- After the agents loop, every row for an entry whose model reference did
not resolve carries a null model_id (roles assumed nonempty and pairwise
distinct within the file). -/
theorem importAgents_keeps_null_ref (mm : List (String × Nat)) :
    ∀ (ys : List AgentY) (db : DB), (∀ y ∈ ys, y.agent_role ≠ "") →
      (ys.map AgentY.agent_role).Nodup →
      ∀ y ∈ ys, resolveRef mm y = none →
        ∀ r ∈ (importAgents mm ys db).1.agents, r.agent_role = y.agent_role →
          r.model_id = none := by
  intro ys
  induction ys with
  | nil => intro db _ _ y hy; exact absurd hy (List.not_mem_nil y)
  | cons y0 ys ih =>
    intro db hroles hnodup y hy hres r hr hrrole
    obtain ⟨d2, hd2⟩ := setAgentDetails_ok_of_role_ne db
      ⟨y0.agent_role, some y0.agent_description, some y0.allowed_tools,
        some y0.default_developer_prompt, some y0.default_user_prompt,
        resolveRef mm y0, some y0.reasoning_level, some y0.tool_choice⟩
      (hroles y0 (List.mem_cons_self y0 ys))
    simp only [importAgents, hd2] at hr ⊢
    simp only [List.map_cons, List.nodup_cons] at hnodup
    rcases List.mem_cons.mp hy with hy0 | hytl
    · subst hy0
      have hfr := importAgents_role_frame mm y.agent_role ys d2 hnodup.1
      have hrf : r ∈ d2.agents.filter (fun s => s.agent_role == y.agent_role) := by
        rw [← hfr]
        exact List.mem_filter.mpr ⟨hr, by simp [hrrole]⟩
      have hrd2 := List.mem_filter.mp hrf
      have := (setAgentDetails_rows hd2 r hrd2.1 hrrole).2.2.2.2.1
      rw [this, hres]
    · exact ih d2 (fun z hz => hroles z (List.mem_cons_of_mem y0 hz)) hnodup.2
        y hytl hres r hr hrrole

/-- C6: the agents loop never fails because of an unresolved model reference
(only an empty agent_role can make it throw): with nonempty roles it reports
no error, an entry whose reference resolves to no model is still upserted
with a null model_id, and — in the full importTemplate — the tasks stage
still runs afterwards. -/
theorem import_unknown_model_is_tolerated (mm : List (String × Nat))
    (ys : List AgentY) (db : DB) (t : Template) (db0 db1 db2 : DB)
    (hroles : ∀ y ∈ ys, y.agent_role ≠ "")
    (hnodup : (ys.map AgentY.agent_role).Nodup)
    (htagents : ∀ y ∈ t.agents, y.agent_role ≠ "")
    (hp : importProviders t.providers (wipeAll db0) = (db1, none))
    (hm : importModels (mkProvMap db1) t.models db1 = (db2, none)) :
    (importAgents mm ys db).2 = none ∧
    (∀ y ∈ ys, resolveRef mm y = none →
      ∀ r ∈ (importAgents mm ys db).1.agents, r.agent_role = y.agent_role →
        r.model_id = none) ∧
    importTemplate t db0 true =
      importTasks t.tasks (importAgents (mkModelMap db2) t.agents db2).1 := by
  have herr : ∀ (mmx : List (String × Nat)) (zs : List AgentY) (d : DB),
      (∀ y ∈ zs, y.agent_role ≠ "") → (importAgents mmx zs d).2 = none := by
    intro mmx zs
    induction zs with
    | nil => intro d _; rfl
    | cons y ys ih =>
      intro d hzs
      obtain ⟨d2, hd2⟩ := setAgentDetails_ok_of_role_ne d
        ⟨y.agent_role, some y.agent_description, some y.allowed_tools,
          some y.default_developer_prompt, some y.default_user_prompt, resolveRef mmx y,
          some y.reasoning_level, some y.tool_choice⟩
        (hzs y (List.mem_cons_self y ys))
      simp only [importAgents, hd2]
      exact ih d2 (fun z hz => hzs z (List.mem_cons_of_mem y hz))
  refine ⟨herr mm ys db hroles, importAgents_keeps_null_ref mm ys db hroles hnodup, ?_⟩
  have hagents := herr (mkModelMap db2) t.agents db2 htagents
  rcases hag : importAgents (mkModelMap db2) t.agents db2 with ⟨db3, e⟩
  rw [hag] at hagents
  dsimp only at hagents
  subst hagents
  simp only [importTemplate, if_true, hp, hm, hag]

def ysC6 : List AgentY := [⟨"ag", "", [], "", "", "medium", "auto", some "p", some "x"⟩]

def tC6 : Template :=
  ⟨[], [], [⟨"ag2", "", [], "", "", "medium", "auto", some "p", some "x"⟩], [⟨"t", "p"⟩]⟩

theorem import_unknown_model_is_tolerated_witness :
    (importAgents [] ysC6 emptyDB).2 = none ∧
    importTemplate tC6 emptyDB true =
      importTasks tC6.tasks (importAgents (mkModelMap emptyDB) tC6.agents emptyDB).1 := by
  have h := import_unknown_model_is_tolerated [] ysC6 emptyDB tC6 emptyDB emptyDB emptyDB
    (by decide) (by decide) (by decide) rfl rfl
  exact ⟨h.1, h.2.2⟩

/-! ## C7: handlers answer 500 with a fixed error string (corrected) -/

def dbC7 : DB :=
  ⟨[⟨1, "p", "p", ""⟩], [⟨1, 1, "a", "a", "", true⟩, ⟨2, 1, "b", "b", "", true⟩],
    [], [⟨1, "t", "p"⟩], 2, 3, 1, 2⟩

/-- C7 counterexample: at this concrete input the database operation throws
a UNIQUE-constraint message but the models handler answers 500 with the
fixed string Error updating model., so the claim that the error field is
the caught error's message string is false. -/
theorem handler_error_counterexample :
    createOrUpdateModel dbC7 ⟨some 1, 1, "b", none, none, none⟩ =
      .error "UNIQUE constraint failed: models.provider_id, models.model_name" ∧
    modelsPOST dbC7 ⟨some 1, some 1, some "b", none, none⟩ =
      (⟨500, none, some "Error updating model."⟩, dbC7) ∧
    ("Error updating model." : String) ≠
      "UNIQUE constraint failed: models.provider_id, models.model_name" :=
  ⟨rfl, rfl, by decide⟩

/-- C7 (amended): when the underlying database or import operation throws,
the cited handlers respond 500 with a fixed handler-specific error string
(Error updating model., Internal server error., Failed to import template.
Check server logs for details.) that does not depend on the caught error's
message. -/
theorem handler_error_fixed_message (db db2 : DB) (mb : ModelsBody)
    (tp : Option String) (nm : String) (t : Template) (tname : String)
    (em et ei : String)
    (hm : createOrUpdateModel db ⟨mb.id, mb.provider_id.getD 0, jsStr mb.model_name,
      none, mb.extra_info, mb.supports_reasoning⟩ = .error em)
    (hmv1 : truthyId mb.provider_id = true) (hmv2 : truthy mb.model_name = true)
    (ht : createTask db nm (orDefault tp "") = .error et) (hnm : nm ≠ "")
    (hi : importTemplate t db true = (db2, some ei)) :
    modelsPOST db mb = (⟨500, none, some "Error updating model."⟩, db) ∧
    tasksPOST db (some nm) tp = (⟨500, none, some "Internal server error."⟩, db) ∧
    templatesImportPOST t db tname =
      (⟨500, none, some "Failed to import template. Check server logs for details."⟩,
        db2) := by
  refine ⟨?_, ?_, ?_⟩
  · unfold modelsPOST
    rw [hmv1, hmv2]
    simp only [Bool.and_self, Bool.not_true, Bool.false_eq_true, if_false, hm]
  · simp only [tasksPOST]
    rw [if_neg hnm, ht]
  · unfold templatesImportPOST
    rw [hi]

def tC7 : Template := ⟨[⟨"pp", "", ""⟩], [⟨some "zz", "m", "m", "", true⟩], [], []⟩

theorem handler_error_fixed_message_witness :
    modelsPOST dbC7 ⟨some 1, some 1, some "b", none, none⟩ =
      (⟨500, none, some "Error updating model."⟩, dbC7) ∧
    tasksPOST dbC7 (some "t") none =
      (⟨500, none, some "Internal server error."⟩, dbC7) ∧
    templatesImportPOST tC7 dbC7 "demo" =
      (⟨500, none, some "Failed to import template. Check server logs for details."⟩,
        ⟨[⟨2, "pp", "pp", ""⟩], [], [], [], 3, 3, 1, 2⟩) :=
  handler_error_fixed_message dbC7 ⟨[⟨2, "pp", "pp", ""⟩], [], [], [], 3, 3, 1, 2⟩
    ⟨some 1, some 1, some "b", none, none⟩ none "t" tC7 "demo"
    "UNIQUE constraint failed: models.provider_id, models.model_name"
    "UNIQUE constraint failed: tasks.task_name"
    "[import][model] Provider not found for \"zz\"" rfl rfl rfl rfl (by decide) rfl

/-! ## C4: duplicate natural keys within one YAML file -/

theorem orDefault_some_empty (s : String) : orDefault (some s) "" = s := by
  by_cases h : s = "" <;> simp [orDefault, h]

theorem find?_append_some {l₁ l₂ : List α} {p : α → Bool} {a : α}
    (h : l₁.find? p = some a) : (l₁ ++ l₂).find? p = some a := by
  induction l₁ with
  | nil => simp [List.find?] at h
  | cons b bs ih =>
    rcases hb : p b with _ | _
    · rw [List.find?_cons_of_neg _ (by simp [hb])] at h
      rw [List.cons_append, List.find?_cons_of_neg _ (by simp [hb])]
      exact ih h
    · rw [List.find?_cons_of_pos _ hb] at h
      rw [List.cons_append, List.find?_cons_of_pos _ hb]
      exact h

theorem find?_append_none {l₁ l₂ : List α} {p : α → Bool}
    (h : l₁.find? p = none) : (l₁ ++ l₂).find? p = l₂.find? p := by
  induction l₁ with
  | nil => rfl
  | cons b bs ih =>
    rcases hb : p b with _ | _
    · rw [List.find?_cons_of_neg _ (by simp [hb])] at h
      rw [List.cons_append, List.find?_cons_of_neg _ (by simp [hb])]
      exact ih h
    · rw [List.find?_cons_of_pos _ hb] at h
      exact absurd h (by simp)

theorem filter_eq_nil_of_none (l : List α) (p : α → Bool)
    (h : ∀ a ∈ l, p a = false) : l.filter p = [] := by
  induction l with
  | nil => rfl
  | cons a as ih =>
    rw [List.filter_cons_of_neg (by simp [h a (List.mem_cons_self a as)])]
    exact ih (fun b hb => h b (List.mem_cons_of_mem a hb))

/-- In a list whose keys are pairwise distinct, filtering with a predicate
equivalent to sharing the key of a member returns exactly that member. -/
theorem filter_key_singleton {β : Type v} (key : α → β) (p : α → Bool) (a : α)
    (hp : ∀ x, p x = true ↔ key x = key a) :
    ∀ (l : List α), (l.map key).Nodup → a ∈ l → l.filter p = [a] := by
  intro l
  induction l with
  | nil => intro _ ha; exact absurd ha (List.not_mem_nil a)
  | cons b bs ih =>
    intro hn ha
    simp only [List.map_cons, List.nodup_cons] at hn
    rcases List.mem_cons.mp ha with rfl | hmem
    · rw [List.filter_cons_of_pos ((hp a).mpr rfl)]
      have hnil : bs.filter p = [] := by
        refine filter_eq_nil_of_none bs _ (fun x hx => ?_)
        have hne : key x ≠ key a := fun he => hn.1 (he ▸ List.mem_map_of_mem key hx)
        rcases hpx : p x with _ | _
        · rfl
        · exact absurd ((hp x).mp hpx) hne
      rw [hnil]
    · have hkb : key b ≠ key a := fun he => hn.1 (he ▸ List.mem_map_of_mem key hmem)
      rw [List.filter_cons_of_neg (fun hpb => hkb ((hp b).mp hpb))]
      exact ih hn.2 hmem

/-- Mapping a key-preserving update under a map of keys changes nothing. -/
theorem map_key_of_update (l : List α) (u : α → α) (key : α → β)
    (h : ∀ a, key (u a) = key a) : (l.map u).map key = l.map key := by
  induction l with
  | nil => rfl
  | cons a as ih => simp only [List.map_cons, h a, ih]

theorem filter_map_comm (l : List α) (u : α → α) (p : α → Bool)
    (h : ∀ a, p (u a) = p a) :
    (l.map u).filter p = (l.filter p).map u := by
  induction l with
  | nil => rfl
  | cons a as ih =>
    simp only [List.map_cons, List.filter_cons, h a]
    by_cases hp : p a = true
    · rw [if_pos hp, if_pos hp, List.map_cons, ih]
    · rw [if_neg hp, if_neg hp, ih]

/-- Natural fields of a provider row (everything but the internal id). -/
def provFields (p : Provider) : String × String × String :=
  (p.provider_name, p.display_name, p.extra_info)

/-- One upsert step of the providers import loop: it cannot throw, other
tables are untouched, provider names stay pairwise distinct, after it the
rows named y.provider_name are exactly one row carrying y's values, and
every other name keeps its rows. -/
theorem importProviders_step (db : DB) (y : ProviderY)
    (hn : (db.providers.map Provider.provider_name).Nodup) :
    ∃ db2, createOrUpdateProvider db
        ⟨none, y.provider_name, some y.display_name, some y.extra_info⟩ = .ok db2 ∧
      (db2.providers.map Provider.provider_name).Nodup ∧
      db2.models = db.models ∧ db2.agents = db.agents ∧ db2.tasks = db.tasks ∧
      (db2.providers.filter (fun p => p.provider_name == y.provider_name)).map provFields =
        [(y.provider_name, safeDisplayName (some y.display_name) y.provider_name,
          y.extra_info)] ∧
      (∀ k, k ≠ y.provider_name →
        db2.providers.filter (fun p => p.provider_name == k) =
          db.providers.filter (fun p => p.provider_name == k)) := by
  simp only [createOrUpdateProvider]
  by_cases hany : db.providers.any (fun p => p.provider_name == y.provider_name) = true
  · rw [if_pos hany]
    refine ⟨_, rfl, ?_, rfl, rfl, rfl, ?_, ?_⟩
    · rw [map_key_of_update _ _ _ (fun p => by split <;> rfl)]
      exact hn
    · obtain ⟨p0, hp0, hp0k⟩ := List.any_eq_true.mp hany
      simp only [beq_iff_eq] at hp0k
      rw [filter_map_comm _ _ _ (fun p => by split <;> rfl)]
      have hsingle : db.providers.filter (fun p => p.provider_name == y.provider_name) =
          [p0] :=
        filter_key_singleton Provider.provider_name _ p0 (fun x => by simp [hp0k])
          db.providers hn hp0
      rw [hsingle]
      simp [provFields, hp0k, orDefault_some_empty]
    · intro k hk
      exact filter_map_update _ _ _ (fun p => by split <;> rfl)
        (fun p hp => by
          rw [if_neg]
          simp only [beq_iff_eq] at hp ⊢
          rw [hp]
          exact hk)
  · rw [if_neg hany]
    have hnot : y.provider_name ∉ db.providers.map Provider.provider_name := by
      intro hmem
      obtain ⟨p0, hp0, hp0k⟩ := List.mem_map.mp hmem
      exact hany (List.any_eq_true.mpr ⟨p0, hp0, by simp [hp0k]⟩)
    refine ⟨_, rfl, ?_, rfl, rfl, rfl, ?_, ?_⟩
    · simp only [List.map_append, List.map_cons, List.map_nil]
      refine List.Nodup.append hn (List.nodup_singleton _) ?_
      intro x hx hx1
      simp only [List.mem_singleton] at hx1
      subst hx1
      exact hnot hx
    · rw [List.filter_append,
        filter_eq_nil_of_none db.providers _ (fun p hp => by
          have : p.provider_name ≠ y.provider_name := by
            intro he
            exact hnot (he ▸ List.mem_map_of_mem Provider.provider_name hp)
          simp [this]),
        List.nil_append]
      simp [provFields, orDefault_some_empty]
    · intro k hk
      rw [List.filter_append, List.filter_cons_of_neg (by simp [Ne.symm hk]),
        List.filter_nil, List.append_nil]

/-- The providers loop never throws, keeps provider names pairwise distinct,
and for every name the surviving row holds the values of the last yaml
record with that name (rows of names the file does not mention are kept). -/
theorem importProviders_last_wins :
    ∀ (ys : List ProviderY) (db : DB), (db.providers.map Provider.provider_name).Nodup →
      (importProviders ys db).2 = none ∧
      (((importProviders ys db).1.providers.map Provider.provider_name)).Nodup ∧
      (∀ k y, ys.reverse.find? (fun z => z.provider_name == k) = some y →
        (((importProviders ys db).1.providers.filter
          (fun p => p.provider_name == k)).map provFields) =
          [(k, safeDisplayName (some y.display_name) k, y.extra_info)]) ∧
      (∀ k, ys.reverse.find? (fun z => z.provider_name == k) = none →
        (importProviders ys db).1.providers.filter (fun p => p.provider_name == k) =
          db.providers.filter (fun p => p.provider_name == k)) := by
  intro ys
  induction ys with
  | nil =>
    intro db hn
    exact ⟨rfl, hn, fun k y h => by simp [List.find?] at h, fun k _ => rfl⟩
  | cons y0 ys ih =>
    intro db hn
    obtain ⟨db2, hok, hn2, _, _, _, hself, hother⟩ := importProviders_step db y0 hn
    obtain ⟨iherr, ihnodup, ihsome, ihnone⟩ := ih db2 hn2
    simp only [importProviders, hok]
    refine ⟨iherr, ihnodup, ?_, ?_⟩
    · intro k y hfind
      simp only [List.reverse_cons] at hfind
      rcases htl : ys.reverse.find? (fun z => z.provider_name == k) with _ | y1
      · rw [find?_append_none htl] at hfind
        by_cases hk : y0.provider_name = k
        · rw [List.find?_cons_of_pos _ (by simp [hk])] at hfind
          obtain rfl : y0 = y := by simpa using hfind
          subst hk
          rw [ihnone _ htl, hself]
        · rw [List.find?_cons_of_neg _ (by simp [hk])] at hfind
          simp at hfind
      · rw [find?_append_some htl] at hfind
        obtain rfl : y1 = y := by simpa using hfind
        exact ihsome k _ htl
    · intro k hfind
      simp only [List.reverse_cons] at hfind
      rcases htl : ys.reverse.find? (fun z => z.provider_name == k) with _ | y1
      · rw [find?_append_none htl] at hfind
        by_cases hk : y0.provider_name = k
        · rw [List.find?_cons_of_pos _ (by simp [hk])] at hfind
          simp at hfind
        · rw [ihnone _ htl, hother k (fun he => hk he.symm)]
      · rw [find?_append_some htl] at hfind
        simp at hfind

/-- The (provider_id, model_name) natural key a models.yaml entry resolves
to, when its provider_name is known. -/
def resolveKey (pm : List (String × Nat)) (y : ModelY) : Option (Nat × String) :=
  (provLookup pm y.provider_name).map (fun pid => (pid, y.model_name))

/-- Natural fields of a model row (everything but the internal id). -/
def modelFields (m : Model) : Nat × String × String × String × Bool :=
  (m.provider_id, m.model_name, m.display_name, m.extra_info, m.supports_reasoning)

/-- The models table key used by its UNIQUE constraint. -/
def modelKeyOf (m : Model) : Nat × String := (m.provider_id, m.model_name)

theorem filter_modelKey_eq (l : List Model) (q : Nat) (nm : String) :
    l.filter (fun m => m.provider_id == q && m.model_name == nm) =
      l.filter (fun m => modelKeyOf m == (q, nm)) := by
  induction l with
  | nil => rfl
  | cons m ms ih =>
    simp only [List.filter_cons]
    rw [show (modelKeyOf m == (q, nm)) = (m.provider_id == q && m.model_name == nm)
      from rfl, ih]

/-- One upsert step of the models import loop after provider resolution. -/
theorem importModels_step (db : DB) (pid : Nat) (y : ModelY)
    (hn : (db.models.map modelKeyOf).Nodup) :
    ∃ db2, createOrUpdateModel db ⟨none, pid, y.model_name, some y.display_name,
        some y.extra_info, some y.supports_reasoning⟩ = .ok db2 ∧
      (db2.models.map modelKeyOf).Nodup ∧
      db2.providers = db.providers ∧ db2.agents = db.agents ∧ db2.tasks = db.tasks ∧
      (db2.models.filter (fun m => modelKeyOf m == (pid, y.model_name))).map modelFields =
        [(pid, y.model_name, y.display_name, y.extra_info, y.supports_reasoning)] ∧
      (∀ q nm, ¬(q = pid ∧ nm = y.model_name) →
        db2.models.filter (fun m => modelKeyOf m == (q, nm)) =
          db.models.filter (fun m => modelKeyOf m == (q, nm))) := by
  simp only [createOrUpdateModel]
  by_cases hany : db.models.any
      (fun m => m.provider_id == pid && m.model_name == y.model_name) = true
  · rw [if_pos hany]
    refine ⟨_, rfl, ?_, rfl, rfl, rfl, ?_, ?_⟩
    · rw [map_key_of_update _ _ _ (fun m => by split <;> rfl)]
      exact hn
    · obtain ⟨m0, hm0, hm0k⟩ := List.any_eq_true.mp hany
      simp only [Bool.and_eq_true, beq_iff_eq] at hm0k
      rw [filter_map_comm _ _ _ (fun m => by split <;> rfl)]
      have hk0 : modelKeyOf m0 = (pid, y.model_name) := by
        simp [modelKeyOf, hm0k.1, hm0k.2]
      have hsingle : db.models.filter (fun m => modelKeyOf m == (pid, y.model_name)) =
          [m0] :=
        filter_key_singleton modelKeyOf _ m0 (fun x => by rw [hk0]; exact beq_iff_eq)
          db.models hn hm0
      rw [hsingle]
      simp [modelFields, modelDisplay, modelSr, hm0k.1, hm0k.2, orDefault_some_empty]
    · intro q nm hqnm
      exact filter_map_update _ _ _ (fun m => by split <;> rfl)
        (fun m hm => by
          rw [if_neg]
          simp only [modelKeyOf, beq_iff_eq, Prod.mk.injEq] at hm
          simp only [Bool.and_eq_true, beq_iff_eq, not_and]
          intro h1 h2
          refine hqnm ⟨?_, ?_⟩
          · rw [← hm.1]; exact h1
          · rw [← hm.2]; exact h2)
  · rw [if_neg hany]
    have hnot : (pid, y.model_name) ∉ db.models.map modelKeyOf := by
      intro hmem
      obtain ⟨m0, hm0, hm0k⟩ := List.mem_map.mp hmem
      simp only [modelKeyOf, Prod.mk.injEq] at hm0k
      exact hany (List.any_eq_true.mpr ⟨m0, hm0, by simp [hm0k.1, hm0k.2]⟩)
    refine ⟨_, rfl, ?_, rfl, rfl, rfl, ?_, ?_⟩
    · simp only [List.map_append, List.map_cons, List.map_nil]
      refine List.Nodup.append hn (List.nodup_singleton _) ?_
      intro x hx hx1
      simp only [List.mem_singleton] at hx1
      subst hx1
      exact hnot hx
    · rw [List.filter_append,
        filter_eq_nil_of_none db.models _ (fun m hm => by
          have : modelKeyOf m ≠ (pid, y.model_name) := by
            intro he
            exact hnot (he ▸ List.mem_map_of_mem modelKeyOf hm)
          simp [this]),
        List.nil_append]
      simp [modelFields, modelKeyOf, modelDisplay, modelSr, orDefault_some_empty]
    · intro q nm hqnm
      rw [List.filter_append, List.filter_cons_of_neg (by
          simp only [modelKeyOf, beq_iff_eq, Prod.mk.injEq]
          intro h
          exact hqnm ⟨h.1.symm, h.2.symm⟩),
        List.filter_nil, List.append_nil]

/-- The models loop never throws when every entry resolves, keeps the
(provider_id, model_name) keys pairwise distinct, and per key the surviving
row holds the values of the last yaml record resolving to it. -/
theorem importModels_last_wins (pm : List (String × Nat)) :
    ∀ (ys : List ModelY) (db : DB), (db.models.map modelKeyOf).Nodup →
      (∀ y ∈ ys, resolveKey pm y ≠ none) →
      (importModels pm ys db).2 = none ∧
      ((importModels pm ys db).1.models.map modelKeyOf).Nodup ∧
      (∀ pid nm y,
        ys.reverse.find? (fun z => resolveKey pm z == some (pid, nm)) = some y →
        ((importModels pm ys db).1.models.filter
          (fun m => modelKeyOf m == (pid, nm))).map modelFields =
          [(pid, nm, y.display_name, y.extra_info, y.supports_reasoning)]) ∧
      (∀ pid nm,
        ys.reverse.find? (fun z => resolveKey pm z == some (pid, nm)) = none →
        (importModels pm ys db).1.models.filter (fun m => modelKeyOf m == (pid, nm)) =
          db.models.filter (fun m => modelKeyOf m == (pid, nm))) := by
  intro ys
  induction ys with
  | nil =>
    intro db hn _
    exact ⟨rfl, hn, fun pid nm y h => by simp [List.find?] at h, fun pid nm _ => rfl⟩
  | cons y0 ys ih =>
    intro db hn hres
    rcases hlook : provLookup pm y0.provider_name with _ | pid0
    · exact absurd (by simp [resolveKey, hlook])
        (hres y0 (List.mem_cons_self y0 ys))
    · obtain ⟨db2, hok, hn2, _, _, _, hself, hother⟩ := importModels_step db pid0 y0 hn
      obtain ⟨iherr, ihnodup, ihsome, ihnone⟩ :=
        ih db2 hn2 (fun z hz => hres z (List.mem_cons_of_mem y0 hz))
      have hkey0 : resolveKey pm y0 = some (pid0, y0.model_name) := by
        simp [resolveKey, hlook]
      simp only [importModels, hlook, hok]
      refine ⟨iherr, ihnodup, ?_, ?_⟩
      · intro pid nm y hfind
        simp only [List.reverse_cons] at hfind
        rcases htl : ys.reverse.find? (fun z => resolveKey pm z == some (pid, nm))
          with _ | y1
        · rw [find?_append_none htl] at hfind
          by_cases hk : resolveKey pm y0 = some (pid, nm)
          · rw [List.find?_cons_of_pos _ (by simp [hk])] at hfind
            obtain rfl : y0 = y := by simpa using hfind
            rw [hkey0] at hk
            have hpair : (pid0, y0.model_name) = (pid, nm) := by simpa using hk
            have hp : pid0 = pid := congrArg Prod.fst hpair
            have hm : y0.model_name = nm := congrArg Prod.snd hpair
            subst hp
            subst hm
            rw [ihnone _ _ htl, hself]
          · rw [List.find?_cons_of_neg _ (by simp [hk])] at hfind
            simp at hfind
        · rw [find?_append_some htl] at hfind
          obtain rfl : y1 = y := by simpa using hfind
          exact ihsome pid nm _ htl
      · intro pid nm hfind
        simp only [List.reverse_cons] at hfind
        rcases htl : ys.reverse.find? (fun z => resolveKey pm z == some (pid, nm))
          with _ | y1
        · rw [find?_append_none htl] at hfind
          by_cases hk : resolveKey pm y0 = some (pid, nm)
          · rw [List.find?_cons_of_pos _ (by simp [hk])] at hfind
            simp at hfind
          · rw [ihnone _ _ htl, hother pid nm ?_]
            intro hqn
            rw [hkey0] at hk
            exact hk (by rw [hqn.1, hqn.2])
        · rw [find?_append_some htl] at hfind
          simp at hfind

/-- Natural fields of an agent_roles row (everything but the internal id). -/
def agentFields (r : AgentRole) :
    String × String × List String × String × String × Option Nat × String × String :=
  (r.agent_role, r.agent_description, r.allowed_tools, r.default_developer_prompt,
    r.default_user_prompt, r.model_id, r.reasoning_level, r.tool_choice)

/-- One setAgentDetails upsert with a nonempty role: it succeeds, keeps roles
pairwise distinct and other tables untouched, and afterwards exactly one row
carries the written role, holding the normalized written fields. -/
theorem setAgentDetails_step (db : DB) (a : AgentArgs) (hrole : a.agent_role ≠ "")
    (hn : (db.agents.map AgentRole.agent_role).Nodup) :
    ∃ db2, setAgentDetails db a = .ok db2 ∧
      (db2.agents.map AgentRole.agent_role).Nodup ∧
      db2.providers = db.providers ∧ db2.models = db.models ∧ db2.tasks = db.tasks ∧
      (db2.agents.filter (fun r => r.agent_role == a.agent_role)).map agentFields =
        [(a.agent_role, orDefault a.agent_description "", ensureDefaultTool a.allowed_tools,
          orDefault a.default_developer_prompt "", orDefault a.default_user_prompt "",
          a.model_id, orDefault a.reasoning_level "medium",
          orDefault a.tool_choice "auto")] := by
  unfold setAgentDetails
  rw [if_neg hrole]
  rcases hfind : getAgentByType db a.agent_role with _ | row
  · have hnot : ∀ r ∈ db.agents, (r.agent_role == a.agent_role) = false := by
      intro r hr
      have := List.find?_eq_none.mp hfind r hr
      simpa using this
    refine ⟨_, rfl, ?_, rfl, rfl, rfl, ?_⟩
    · simp only [List.map_append, List.map_cons, List.map_nil]
      refine List.Nodup.append hn (List.nodup_singleton _) ?_
      intro x hx hx1
      simp only [List.mem_singleton] at hx1
      subst hx1
      obtain ⟨r, hr, hrk⟩ := List.mem_map.mp hx
      have := hnot r hr
      simp [hrk] at this
    · rw [List.filter_append, filter_eq_nil_of_none db.agents _ hnot, List.nil_append]
      rw [List.filter_cons_of_pos (by simp)]
      simp [agentFields]
  · have hrowmem := List.mem_of_find?_eq_some hfind
    have hrowkey : row.agent_role = a.agent_role := by
      have := List.find?_some hfind
      simpa using this
    refine ⟨_, rfl, ?_, rfl, rfl, rfl, ?_⟩
    · rw [map_key_of_update _ _ _ (fun r => by split <;> rfl)]
      exact hn
    · rw [filter_map_comm _ _ _ (fun r => by split <;> rfl)]
      have hsingle : db.agents.filter (fun r => r.agent_role == a.agent_role) = [row] :=
        filter_key_singleton AgentRole.agent_role _ row (fun x => by simp [hrowkey])
          db.agents hn hrowmem
      rw [hsingle]
      simp [agentFields, hrowkey]

/-- The agents loop with nonempty roles never throws, keeps roles pairwise
distinct, and per role the surviving row holds the values of the last yaml
record with that role (with its own reference resolution). -/
theorem importAgents_last_wins (mm : List (String × Nat)) :
    ∀ (ys : List AgentY) (db : DB), (db.agents.map AgentRole.agent_role).Nodup →
      (∀ y ∈ ys, y.agent_role ≠ "") →
      (importAgents mm ys db).2 = none ∧
      ((importAgents mm ys db).1.agents.map AgentRole.agent_role).Nodup ∧
      (∀ role y, ys.reverse.find? (fun z => z.agent_role == role) = some y →
        ((importAgents mm ys db).1.agents.filter
          (fun r => r.agent_role == role)).map agentFields =
          [(role, y.agent_description, ensureDefaultTool (some y.allowed_tools),
            y.default_developer_prompt, y.default_user_prompt, resolveRef mm y,
            orDefault (some y.reasoning_level) "medium",
            orDefault (some y.tool_choice) "auto")]) ∧
      (∀ role, ys.reverse.find? (fun z => z.agent_role == role) = none →
        (importAgents mm ys db).1.agents.filter (fun r => r.agent_role == role) =
          db.agents.filter (fun r => r.agent_role == role)) := by
  intro ys
  induction ys with
  | nil =>
    intro db hn _
    exact ⟨rfl, hn, fun role y h => by simp [List.find?] at h, fun role _ => rfl⟩
  | cons y0 ys ih =>
    intro db hn hroles
    obtain ⟨db2, hok, hn2, _, _, _, hself⟩ := setAgentDetails_step db
      ⟨y0.agent_role, some y0.agent_description, some y0.allowed_tools,
        some y0.default_developer_prompt, some y0.default_user_prompt, resolveRef mm y0,
        some y0.reasoning_level, some y0.tool_choice⟩
      (hroles y0 (List.mem_cons_self y0 ys)) hn
    obtain ⟨iherr, ihnodup, ihsome, ihnone⟩ :=
      ih db2 hn2 (fun z hz => hroles z (List.mem_cons_of_mem y0 hz))
    simp only [importAgents, hok]
    refine ⟨iherr, ihnodup, ?_, ?_⟩
    · intro role y hfind
      simp only [List.reverse_cons] at hfind
      rcases htl : ys.reverse.find? (fun z => z.agent_role == role) with _ | y1
      · rw [find?_append_none htl] at hfind
        by_cases hk : y0.agent_role = role
        · rw [List.find?_cons_of_pos _ (by simp [hk])] at hfind
          obtain rfl : y0 = y := by simpa using hfind
          subst hk
          rw [ihnone _ htl]
          simpa [orDefault_some_empty] using hself
        · rw [List.find?_cons_of_neg _ (by simp [hk])] at hfind
          simp at hfind
      · rw [find?_append_some htl] at hfind
        obtain rfl : y1 = y := by simpa using hfind
        exact ihsome role _ htl
    · intro role hfind
      simp only [List.reverse_cons] at hfind
      rcases htl : ys.reverse.find? (fun z => z.agent_role == role) with _ | y1
      · rw [find?_append_none htl] at hfind
        by_cases hk : y0.agent_role = role
        · rw [List.find?_cons_of_pos _ (by simp [hk])] at hfind
          simp at hfind
        · rw [ihnone _ htl, setAgentDetails_frame hok role (fun he => hk he.symm)]
      · rw [find?_append_some htl] at hfind
        simp at hfind

/-- Inserting a task whose name is already present aborts the tasks loop
with the uniqueness error, keeping exactly the rows committed before it. -/
theorem importTasks_abort (pre post : List TaskY) (bad : TaskY) (db : DB)
    (hpre : (importTasks pre db).2 = none)
    (hdup : (importTasks pre db).1.tasks.any
      (fun t => t.task_name == bad.task_name) = true) :
    importTasks (pre ++ bad :: post) db =
      ((importTasks pre db).1, some "UNIQUE constraint failed: tasks.task_name") := by
  induction pre generalizing db with
  | nil =>
    simp only [importTasks] at hdup ⊢
    simp only [List.nil_append, importTasks, createTask, if_pos hdup]
  | cons y pre ih =>
    rcases hct : createTask db y.task_name y.task_prompt with e | db2
    · rw [show importTasks (y :: pre) db = (db, some e) from by
        simp only [importTasks, hct]] at hpre
      simp at hpre
    · have hstep : importTasks (y :: pre) db = importTasks pre db2 := by
        simp only [importTasks, hct]
      rw [hstep] at hpre hdup
      rw [List.cons_append]
      rw [show importTasks (y :: (pre ++ bad :: post)) db =
        importTasks (pre ++ bad :: post) db2 from by simp only [importTasks, hct]]
      rw [hstep, ih db2 hpre hdup]

def tC4 : Template := ⟨[], [], [], [⟨"t", "p1"⟩, ⟨"t", "p2"⟩]⟩

/-- C4 counterexample: importing a template whose tasks.yaml repeats the
task_name t raises the uniqueness error (the claim says no error is raised)
and the surviving row holds the first record's prompt, not the last one's. -/
theorem duplicate_task_key_counterexample :
    (importTemplate tC4 emptyDB true).2 =
      some "UNIQUE constraint failed: tasks.task_name" ∧
    (importTemplate tC4 emptyDB true).1.tasks.map (fun t => (t.task_name, t.task_prompt)) =
      [("t", "p1")] :=
  ⟨rfl, rfl⟩

/-- C4 (amended): within one imported YAML file (imported into the wiped,
empty store), duplicate natural keys upsert the same row for Providers,
Models and Agent roles — exactly one row per key survives, holding the
values of the last record in file order, and no error is raised; for Tasks,
however, createTask is a plain INSERT into a UNIQUE column, so a record
repeating an already-inserted task_name raises a uniqueness error that
aborts the remainder of the task loop, keeping the earlier record's row. -/
theorem duplicate_key_last_wins
    (pm mm : List (String × Nat)) (pys : List ProviderY) (mys : List ModelY)
    (ays : List AgentY) (pre post : List TaskY) (bad : TaskY)
    (hres : ∀ y ∈ mys, resolveKey pm y ≠ none)
    (hroles : ∀ y ∈ ays, y.agent_role ≠ "")
    (hpre : (importTasks pre emptyDB).2 = none)
    (hdup : (importTasks pre emptyDB).1.tasks.any
      (fun t => t.task_name == bad.task_name) = true) :
    ((importProviders pys emptyDB).2 = none ∧
      ∀ k y, pys.reverse.find? (fun z => z.provider_name == k) = some y →
        ((importProviders pys emptyDB).1.providers.filter
          (fun p => p.provider_name == k)).map provFields =
          [(k, safeDisplayName (some y.display_name) k, y.extra_info)]) ∧
    ((importModels pm mys emptyDB).2 = none ∧
      ∀ pid nm y,
        mys.reverse.find? (fun z => resolveKey pm z == some (pid, nm)) = some y →
        ((importModels pm mys emptyDB).1.models.filter
          (fun m => modelKeyOf m == (pid, nm))).map modelFields =
          [(pid, nm, y.display_name, y.extra_info, y.supports_reasoning)]) ∧
    ((importAgents mm ays emptyDB).2 = none ∧
      ∀ role y, ays.reverse.find? (fun z => z.agent_role == role) = some y →
        ((importAgents mm ays emptyDB).1.agents.filter
          (fun r => r.agent_role == role)).map agentFields =
          [(role, y.agent_description, ensureDefaultTool (some y.allowed_tools),
            y.default_developer_prompt, y.default_user_prompt, resolveRef mm y,
            orDefault (some y.reasoning_level) "medium",
            orDefault (some y.tool_choice) "auto")]) ∧
    importTasks (pre ++ bad :: post) emptyDB =
      ((importTasks pre emptyDB).1, some "UNIQUE constraint failed: tasks.task_name") := by
  obtain ⟨perr, _, psome, _⟩ :=
    importProviders_last_wins pys emptyDB (by simp [emptyDB])
  obtain ⟨merr, _, msome, _⟩ :=
    importModels_last_wins pm mys emptyDB (by simp [emptyDB]) hres
  obtain ⟨aerr, _, asome, _⟩ :=
    importAgents_last_wins mm ays emptyDB (by simp [emptyDB]) hroles
  exact ⟨⟨perr, psome⟩, ⟨merr, msome⟩, ⟨aerr, asome⟩,
    importTasks_abort pre post bad emptyDB hpre hdup⟩

def pysC4 : List ProviderY := [⟨"p", "d1", "e1"⟩, ⟨"p", "d2", "e2"⟩]

def mysC4 : List ModelY :=
  [⟨some "p", "m", "d1", "", true⟩, ⟨some "p", "m", "d2", "x", false⟩]

def aysC4 : List AgentY :=
  [⟨"a", "d1", [], "", "", "high", "auto", none, none⟩,
   ⟨"a", "d2", ["x"], "", "", "", "", none, none⟩]

theorem duplicate_key_last_wins_witness :
    ((importProviders pysC4 emptyDB).1.providers.filter
      (fun p => p.provider_name == "p")).map provFields = [("p", "d2", "e2")] ∧
    ((importModels [("p", 1)] mysC4 emptyDB).1.models.filter
      (fun m => modelKeyOf m == (1, "m"))).map modelFields =
      [(1, "m", "d2", "x", false)] ∧
    ((importAgents [] aysC4 emptyDB).1.agents.filter
      (fun r => r.agent_role == "a")).map agentFields =
      [("a", "d2", ["x", "set_work_completed"], "", "", none, "medium", "auto")] ∧
    importTasks ([⟨"t", "p1"⟩] ++ ⟨"t", "p2"⟩ :: []) emptyDB =
      ((importTasks [⟨"t", "p1"⟩] emptyDB).1,
        some "UNIQUE constraint failed: tasks.task_name") := by
  have h := duplicate_key_last_wins [("p", 1)] [] pysC4 mysC4 aysC4
    [⟨"t", "p1"⟩] [] ⟨"t", "p2"⟩ (by decide) (by decide) rfl rfl
  exact ⟨h.1.2 "p" ⟨"p", "d2", "e2"⟩ rfl, h.2.1.2 1 "m" ⟨some "p", "m", "d2", "x", false⟩ rfl,
    h.2.2.1.2 "a" ⟨"a", "d2", ["x"], "", "", "", "", none, none⟩ rfl, h.2.2.2⟩

/-! ## C1: export followed by import into an empty store

The round-trip property compares databases by their natural contents: rows
up to internal id reassignment, with foreign keys compared through the
natural keys they reference. -/

/-- The provider_name a provider_id refers to (None when dangling). -/
def provNameOfId (db : DB) (i : Nat) : Option String :=
  (getProviderById db i).map (·.provider_name)

/-- Providers as a multiset of natural rows. -/
def provView (db : DB) : Multiset (String × String × String) :=
  (db.providers.map provFields : List _)

/-- Models as a multiset of natural rows, the provider reference replaced by
the referenced provider_name. -/
def modelView (db : DB) : Multiset (Option String × String × String × String × Bool) :=
  (db.models.map (fun m =>
    (provNameOfId db m.provider_id, m.model_name, m.display_name, m.extra_info,
      m.supports_reasoning)) : List _)

/-- The natural key of the model an agent's model_id refers to, when the
whole reference chain exists. -/
def agentRefKey (db : DB) : Option Nat → Option (String × String)
  | none => none
  | some i =>
    match getModelById db i with
    | none => none
    | some m =>
      match getProviderById db m.provider_id with
      | none => none
      | some p => some (p.provider_name, m.model_name)

/-- Natural row of an agent role: its fields with the model reference
replaced by the referenced natural key. -/
structure AgentNat where
  agent_role : String
  agent_description : String
  allowed_tools : List String
  default_developer_prompt : String
  default_user_prompt : String
  ref : Option (String × String)
  reasoning_level : String
  tool_choice : String
deriving DecidableEq, Repr

/-- Agent roles as a multiset of natural rows. -/
def agentView (db : DB) : Multiset AgentNat :=
  (db.agents.map (fun r =>
    (⟨r.agent_role, r.agent_description, r.allowed_tools, r.default_developer_prompt,
      r.default_user_prompt, agentRefKey db r.model_id, r.reasoning_level,
      r.tool_choice⟩ : AgentNat)) : List AgentNat)

/-- Tasks as a multiset of natural rows. -/
def taskView (db : DB) : Multiset (String × String) :=
  (db.tasks.map (fun t => (t.task_name, t.task_prompt)) : List _)

/-- Same set of Providers, Models, Agent roles and Tasks, up to internal id
reassignment. -/
def equivDB (d e : DB) : Prop :=
  provView d = provView e ∧ modelView d = modelView e ∧
  agentView d = agentView e ∧ taskView d = taskView e

instance : Decidable (equivDB d e) := by
  unfold equivDB
  infer_instance

/-- Database states reachable from a fresh database through the write
operations of the four entity managers. -/
inductive Reachable : DB → Prop where
  | empty : Reachable emptyDB
  | provUpsert {db db2 : DB} {a : ProviderArgs} :
      Reachable db → createOrUpdateProvider db a = .ok db2 → Reachable db2
  | provDelete {db : DB} (i : Nat) : Reachable db → Reachable (deleteProvider db i)
  | modelUpsert {db db2 : DB} {a : ModelArgs} :
      Reachable db → createOrUpdateModel db a = .ok db2 → Reachable db2
  | modelDelete {db : DB} (i : Nat) : Reachable db → Reachable (deleteModel db i)
  | agentUpsert {db db2 : DB} {a : AgentArgs} :
      Reachable db → setAgentDetails db a = .ok db2 → Reachable db2
  | agentTools {db : DB} (role : String) (tools : Option (List String)) :
      Reachable db → Reachable (setAllowedTools db role tools)
  | agentPrompts {db : DB} (role : String) (dp up : Option String) :
      Reachable db → Reachable (setDefaultPrompts db role dp up)
  | agentDelete {db : DB} (role : String) : Reachable db → Reachable (deleteAgentType db role)
  | taskCreate {db db2 : DB} {n p : String} :
      Reachable db → createTask db n p = .ok db2 → Reachable db2
  | taskUpdate {db db2 : DB} {i : Nat} {n p : String} {c : Nat} :
      Reachable db → updateTask db i n p = .ok (db2, c) → Reachable db2
  | taskDelete {db : DB} (i : Nat) : Reachable db → Reachable (deleteTask db i).1

/-- The row invariants every reachable database satisfies: primary keys and
unique columns pairwise distinct and below the autoincrement counters, the
blank-display convention of createOrUpdateProvider, and the normalizations
setAgentDetails applies on every write. -/
structure WF (db : DB) : Prop where
  provIds : (db.providers.map Provider.id).Nodup
  provIdsLt : ∀ p ∈ db.providers, p.id < db.nextProviderId
  provNames : (db.providers.map Provider.provider_name).Nodup
  provDisplay : ∀ p ∈ db.providers, jsTrim p.display_name = "" →
    p.display_name = p.provider_name
  modelIds : (db.models.map Model.id).Nodup
  modelIdsLt : ∀ m ∈ db.models, m.id < db.nextModelId
  modelKeys : (db.models.map modelKeyOf).Nodup
  agentRoles : (db.agents.map AgentRole.agent_role).Nodup
  agentRolesNe : ∀ r ∈ db.agents, r.agent_role ≠ ""
  agentToolsSentinel : ∀ r ∈ db.agents, DEFAULT_TOOL ∈ r.allowed_tools
  agentRL : ∀ r ∈ db.agents, r.reasoning_level ≠ ""
  agentTC : ∀ r ∈ db.agents, r.tool_choice ≠ ""
  taskIds : (db.tasks.map Task.id).Nodup
  taskIdsLt : ∀ t ∈ db.tasks, t.id < db.nextTaskId
  taskNames : (db.tasks.map Task.task_name).Nodup

theorem map_eq_self_of_id (l : List α) (u : α → α) (h : ∀ a ∈ l, u a = a) :
    l.map u = l := by
  induction l with
  | nil => rfl
  | cons a as ih =>
    rw [List.map_cons, h a (List.mem_cons_self a as),
      ih (fun b hb => h b (List.mem_cons_of_mem a hb))]

/-- At most one element passes a filter that pins a key, when keys are
pairwise distinct. -/
theorem length_filter_le_one {β : Type v} (key : α → β) (c : α → Bool) (k : β)
    (hc : ∀ x, c x = true → key x = k) :
    ∀ l : List α, (l.map key).Nodup → (l.filter c).length ≤ 1 := by
  intro l
  induction l with
  | nil => intro _; simp
  | cons a as ih =>
    intro hn
    simp only [List.map_cons, List.nodup_cons] at hn
    rcases hca : c a with _ | _
    · rw [List.filter_cons_of_neg (by simp [hca])]
      exact ih hn.2
    · rw [List.filter_cons_of_pos hca]
      have : as.filter c = [] := by
        refine filter_eq_nil_of_none as c (fun y hy => ?_)
        rcases hcy : c y with _ | _
        · rfl
        · exfalso
          have hky : key y = key a := (hc y hcy).trans (hc a hca).symm
          exact hn.1 (List.mem_map.mpr ⟨y, hy, hky⟩)
      rw [this]
      simp

/-- A single-row update by a pinned key keeps a unique column unique, when
the updated value collides with no other row. -/
theorem nodup_map_update {β : Type v} (l : List α) (c : α → Bool) (f : α → α)
    (key : α → β) (hn : (l.map key).Nodup) (h2 : (l.filter c).length ≤ 1)
    (h3 : ∀ x ∈ l, c x = true → ∀ y ∈ l, c y = false → key (f x) ≠ key y) :
    ((l.map (fun a => if c a then f a else a)).map key).Nodup := by
  induction l with
  | nil => simp
  | cons a as ih =>
    simp only [List.map_cons, List.nodup_cons] at hn
    rcases hca : c a with _ | _
    · have hua : (if c a = true then f a else a) = a := by rw [if_neg (by simp [hca])]
      simp only [List.map_cons, hua, List.nodup_cons]
      constructor
      · intro hmem
        obtain ⟨w, hw, hwk⟩ := List.mem_map.mp hmem
        obtain ⟨z, hz, rfl⟩ := List.mem_map.mp hw
        rcases hcz : c z with _ | _
        · have huz : (if c z = true then f z else z) = z := by
            rw [if_neg (by simp [hcz])]
          rw [huz] at hwk
          exact hn.1 (List.mem_map.mpr ⟨z, hz, hwk⟩)
        · have huz : (if c z = true then f z else z) = f z := by rw [if_pos hcz]
          rw [huz] at hwk
          exact h3 z (List.mem_cons_of_mem a hz) hcz a (List.mem_cons_self a as) hca hwk
      · refine ih hn.2 ?_ ?_
        · have := h2
          rwa [List.filter_cons_of_neg (by simp [hca])] at this
        · intro x hx hcx y hy hcy
          exact h3 x (List.mem_cons_of_mem a hx) hcx y (List.mem_cons_of_mem a hy) hcy
    · have htail : ∀ y ∈ as, c y = false := by
        intro y hy
        rcases hcy : c y with _ | _
        · rfl
        · exfalso
          rw [List.filter_cons_of_pos hca] at h2
          simp only [List.length_cons] at h2
          have hylen : 0 < (as.filter c).length :=
            List.length_pos_of_mem (List.mem_filter.mpr ⟨hy, hcy⟩)
          omega
      have hmap : as.map (fun x => if c x then f x else x) = as :=
        map_eq_self_of_id as _ (fun y hy => by rw [if_neg (by simp [htail y hy])])
      have hua : (if c a = true then f a else a) = f a := by rw [if_pos hca]
      simp only [List.map_cons, hua, hmap, List.nodup_cons]
      constructor
      · intro hmem
        obtain ⟨y, hy, hyk⟩ := List.mem_map.mp hmem
        exact h3 a (List.mem_cons_self a as) hca y (List.mem_cons_of_mem a hy)
          (htail y hy) hyk.symm
      · exact hn.2

/-- A blank safeDisplayName can only be the provider_name itself. -/
theorem safeDisplayName_blank (d : Option String) (pn : String)
    (h : jsTrim (safeDisplayName d pn) = "") : safeDisplayName d pn = pn := by
  cases d with
  | none => rfl
  | some s =>
    simp only [safeDisplayName] at h ⊢
    by_cases hc : (s != "" && jsTrim s != "") = true
    · rw [if_pos hc] at h
      simp only [Bool.and_eq_true, bne_iff_ne, ne_eq] at hc
      exact absurd h hc.2
    · rw [if_neg hc]

theorem wf_createOrUpdateProvider {db db2 : DB} {a : ProviderArgs}
    (hwf : WF db) (h : createOrUpdateProvider db a = .ok db2) : WF db2 := by
  unfold createOrUpdateProvider at h
  rcases a with ⟨aid, apn, adn, aei⟩
  rcases aid with _ | i
  · simp only at h
    by_cases hany : db.providers.any (fun p => p.provider_name == apn) = true
    · rw [if_pos hany] at h
      simp only [Except.ok.injEq] at h
      subst h
      refine ⟨?_, ?_, ?_, ?_, hwf.modelIds, hwf.modelIdsLt, hwf.modelKeys,
        hwf.agentRoles, hwf.agentRolesNe, hwf.agentToolsSentinel, hwf.agentRL,
        hwf.agentTC, hwf.taskIds, hwf.taskIdsLt, hwf.taskNames⟩
      · rw [map_key_of_update _ _ _ (fun p => by split <;> rfl)]
        exact hwf.provIds
      · intro p2 hp2
        obtain ⟨p, hp, rfl⟩ := List.mem_map.mp hp2
        have := hwf.provIdsLt p hp
        split <;> simpa
      · rw [map_key_of_update _ _ _ (fun p => by split <;> rfl)]
        exact hwf.provNames
      · intro p2 hp2
        obtain ⟨p, hp, rfl⟩ := List.mem_map.mp hp2
        by_cases hc : (p.provider_name == apn) = true
        · rw [if_pos hc]
          intro hblank
          have hsafe := safeDisplayName_blank adn apn hblank
          have hpn : p.provider_name = apn := by simpa using hc
          rw [hsafe, hpn]
        · rw [if_neg hc]
          exact hwf.provDisplay p hp
    · rw [if_neg hany] at h
      simp only [Except.ok.injEq] at h
      subst h
      have hnamefree : ∀ p ∈ db.providers, p.provider_name ≠ apn := by
        intro p hp he
        exact hany (List.any_eq_true.mpr ⟨p, hp, by simp [he]⟩)
      refine ⟨?_, ?_, ?_, ?_, hwf.modelIds, hwf.modelIdsLt, hwf.modelKeys,
        hwf.agentRoles, hwf.agentRolesNe, hwf.agentToolsSentinel, hwf.agentRL,
        hwf.agentTC, hwf.taskIds, hwf.taskIdsLt, hwf.taskNames⟩
      · simp only [List.map_append, List.map_cons, List.map_nil]
        refine List.Nodup.append hwf.provIds (List.nodup_singleton _) ?_
        intro x hx hx1
        simp only [List.mem_singleton] at hx1
        subst hx1
        obtain ⟨p, hp, hpk⟩ := List.mem_map.mp hx
        exact absurd hpk (Nat.ne_of_lt (hwf.provIdsLt p hp))
      · intro p hp
        simp only [List.mem_append, List.mem_singleton] at hp
        rcases hp with hp | rfl
        · exact Nat.lt_succ_of_lt (hwf.provIdsLt p hp)
        · exact Nat.lt_succ_self _
      · simp only [List.map_append, List.map_cons, List.map_nil]
        refine List.Nodup.append hwf.provNames (List.nodup_singleton _) ?_
        intro x hx hx1
        simp only [List.mem_singleton] at hx1
        subst hx1
        obtain ⟨p, hp, hpk⟩ := List.mem_map.mp hx
        exact hnamefree p hp hpk
      · intro p hp
        simp only [List.mem_append, List.mem_singleton] at hp
        rcases hp with hp | rfl
        · exact hwf.provDisplay p hp
        · exact fun hblank => safeDisplayName_blank _ _ hblank
  · simp only at h
    by_cases hany : db.providers.any (fun p => p.id == i) = true
    · rw [if_pos hany] at h
      by_cases hconf : db.providers.any
          (fun p => p.id != i && p.provider_name == apn) = true
      · rw [if_pos hconf] at h
        exact absurd h (by simp)
      · rw [if_neg hconf] at h
        simp only [Except.ok.injEq] at h
        subst h
        have hnoconf : ∀ p ∈ db.providers, p.id ≠ i → p.provider_name ≠ apn := by
          intro p hp hid he
          exact hconf (List.any_eq_true.mpr ⟨p, hp, by simp [hid, he]⟩)
        refine ⟨?_, ?_, ?_, ?_, hwf.modelIds, hwf.modelIdsLt, hwf.modelKeys,
          hwf.agentRoles, hwf.agentRolesNe, hwf.agentToolsSentinel, hwf.agentRL,
          hwf.agentTC, hwf.taskIds, hwf.taskIdsLt, hwf.taskNames⟩
        · rw [map_key_of_update _ _ _ (fun p => by split <;> rfl)]
          exact hwf.provIds
        · intro p2 hp2
          obtain ⟨p, hp, rfl⟩ := List.mem_map.mp hp2
          have := hwf.provIdsLt p hp
          split <;> simpa
        · refine nodup_map_update db.providers _ _ Provider.provider_name
            hwf.provNames
            (length_filter_le_one Provider.id _ i (fun x hx => by simpa using hx)
              db.providers hwf.provIds) ?_
          intro x hx hcx y hy hcy
          have hyid : y.id ≠ i := by simpa using hcy
          exact fun he => hnoconf y hy hyid he.symm
        · intro p2 hp2
          obtain ⟨p, hp, rfl⟩ := List.mem_map.mp hp2
          by_cases hc : (p.id == i) = true
          · rw [if_pos hc]
            intro hblank
            exact safeDisplayName_blank adn apn hblank
          · rw [if_neg hc]
            exact hwf.provDisplay p hp
    · rw [if_neg hany] at h
      simp only [Except.ok.injEq] at h
      subst h
      exact hwf

theorem nodup_map_filter {β : Type v} (key : α → β) (l : List α) (c : α → Bool)
    (hn : (l.map key).Nodup) : ((l.filter c).map key).Nodup :=
  List.Nodup.sublist (List.Sublist.map key (List.filter_sublist l)) hn

theorem wf_deleteProvider (db : DB) (i : Nat) (hwf : WF db) :
    WF (deleteProvider db i) := by
  refine ⟨nodup_map_filter _ _ _ hwf.provIds, ?_, nodup_map_filter _ _ _ hwf.provNames,
    ?_, hwf.modelIds, hwf.modelIdsLt, hwf.modelKeys, hwf.agentRoles, hwf.agentRolesNe,
    hwf.agentToolsSentinel, hwf.agentRL, hwf.agentTC, hwf.taskIds, hwf.taskIdsLt,
    hwf.taskNames⟩
  · intro p hp
    exact hwf.provIdsLt p (List.mem_of_mem_filter hp)
  · intro p hp
    exact hwf.provDisplay p (List.mem_of_mem_filter hp)

theorem wf_deleteModel (db : DB) (i : Nat) (hwf : WF db) : WF (deleteModel db i) := by
  refine ⟨hwf.provIds, hwf.provIdsLt, hwf.provNames, hwf.provDisplay,
    nodup_map_filter _ _ _ hwf.modelIds, ?_, nodup_map_filter _ _ _ hwf.modelKeys,
    hwf.agentRoles, hwf.agentRolesNe, hwf.agentToolsSentinel, hwf.agentRL, hwf.agentTC,
    hwf.taskIds, hwf.taskIdsLt, hwf.taskNames⟩
  intro m hm
  exact hwf.modelIdsLt m (List.mem_of_mem_filter hm)

theorem wf_deleteAgentType (db : DB) (role : String) (hwf : WF db) :
    WF (deleteAgentType db role) := by
  refine ⟨hwf.provIds, hwf.provIdsLt, hwf.provNames, hwf.provDisplay, hwf.modelIds,
    hwf.modelIdsLt, hwf.modelKeys, nodup_map_filter _ _ _ hwf.agentRoles, ?_, ?_, ?_, ?_,
    hwf.taskIds, hwf.taskIdsLt, hwf.taskNames⟩
  · intro r hr
    exact hwf.agentRolesNe r (List.mem_of_mem_filter hr)
  · intro r hr
    exact hwf.agentToolsSentinel r (List.mem_of_mem_filter hr)
  · intro r hr
    exact hwf.agentRL r (List.mem_of_mem_filter hr)
  · intro r hr
    exact hwf.agentTC r (List.mem_of_mem_filter hr)

theorem wf_deleteTask (db : DB) (i : Nat) (hwf : WF db) : WF (deleteTask db i).1 := by
  refine ⟨hwf.provIds, hwf.provIdsLt, hwf.provNames, hwf.provDisplay, hwf.modelIds,
    hwf.modelIdsLt, hwf.modelKeys, hwf.agentRoles, hwf.agentRolesNe,
    hwf.agentToolsSentinel, hwf.agentRL, hwf.agentTC,
    nodup_map_filter _ _ _ hwf.taskIds, ?_, nodup_map_filter _ _ _ hwf.taskNames⟩
  intro t ht
  exact hwf.taskIdsLt t (List.mem_of_mem_filter ht)

theorem wf_createOrUpdateModel {db db2 : DB} {a : ModelArgs}
    (hwf : WF db) (h : createOrUpdateModel db a = .ok db2) : WF db2 := by
  unfold createOrUpdateModel at h
  rcases a with ⟨aid, apid, amn, adn, aei, asr⟩
  rcases aid with _ | i
  · simp only at h
    by_cases hany : db.models.any
        (fun m => m.provider_id == apid && m.model_name == amn) = true
    · rw [if_pos hany] at h
      simp only [Except.ok.injEq] at h
      subst h
      refine ⟨hwf.provIds, hwf.provIdsLt, hwf.provNames, hwf.provDisplay, ?_, ?_, ?_,
        hwf.agentRoles, hwf.agentRolesNe, hwf.agentToolsSentinel, hwf.agentRL, hwf.agentTC,
        hwf.taskIds, hwf.taskIdsLt, hwf.taskNames⟩
      · rw [map_key_of_update _ _ _ (fun m => by split <;> rfl)]
        exact hwf.modelIds
      · intro m2 hm2
        obtain ⟨m, hm, rfl⟩ := List.mem_map.mp hm2
        have := hwf.modelIdsLt m hm
        split <;> simpa
      · rw [map_key_of_update _ _ _ (fun m => by split <;> rfl)]
        exact hwf.modelKeys
    · rw [if_neg hany] at h
      simp only [Except.ok.injEq] at h
      subst h
      have hkeyfree : ∀ m ∈ db.models, modelKeyOf m ≠ (apid, amn) := by
        intro m hm he
        simp only [modelKeyOf, Prod.mk.injEq] at he
        exact hany (List.any_eq_true.mpr ⟨m, hm, by simp [he.1, he.2]⟩)
      refine ⟨hwf.provIds, hwf.provIdsLt, hwf.provNames, hwf.provDisplay, ?_, ?_, ?_,
        hwf.agentRoles, hwf.agentRolesNe, hwf.agentToolsSentinel, hwf.agentRL, hwf.agentTC,
        hwf.taskIds, hwf.taskIdsLt, hwf.taskNames⟩
      · simp only [List.map_append, List.map_cons, List.map_nil]
        refine List.Nodup.append hwf.modelIds (List.nodup_singleton _) ?_
        intro x hx hx1
        simp only [List.mem_singleton] at hx1
        subst hx1
        obtain ⟨m, hm, hmk⟩ := List.mem_map.mp hx
        exact absurd hmk (Nat.ne_of_lt (hwf.modelIdsLt m hm))
      · intro m hm
        simp only [List.mem_append, List.mem_singleton] at hm
        rcases hm with hm | rfl
        · exact Nat.lt_succ_of_lt (hwf.modelIdsLt m hm)
        · exact Nat.lt_succ_self _
      · simp only [List.map_append, List.map_cons, List.map_nil]
        refine List.Nodup.append hwf.modelKeys (List.nodup_singleton _) ?_
        intro x hx hx1
        simp only [List.mem_singleton] at hx1
        subst hx1
        obtain ⟨m, hm, hmk⟩ := List.mem_map.mp hx
        exact hkeyfree m hm hmk
  · simp only at h
    by_cases hany : db.models.any (fun m => m.id == i) = true
    · rw [if_pos hany] at h
      by_cases hconf : db.models.any
          (fun m => m.id != i && m.provider_id == apid && m.model_name == amn) = true
      · rw [if_pos hconf] at h
        exact absurd h (by simp)
      · rw [if_neg hconf] at h
        simp only [Except.ok.injEq] at h
        subst h
        have hnoconf : ∀ m ∈ db.models, m.id ≠ i → modelKeyOf m ≠ (apid, amn) := by
          intro m hm hid he
          simp only [modelKeyOf, Prod.mk.injEq] at he
          exact hconf (List.any_eq_true.mpr ⟨m, hm, by simp [hid, he.1, he.2]⟩)
        refine ⟨hwf.provIds, hwf.provIdsLt, hwf.provNames, hwf.provDisplay, ?_, ?_, ?_,
          hwf.agentRoles, hwf.agentRolesNe, hwf.agentToolsSentinel, hwf.agentRL,
          hwf.agentTC, hwf.taskIds, hwf.taskIdsLt, hwf.taskNames⟩
        · rw [map_key_of_update _ _ _ (fun m => by split <;> rfl)]
          exact hwf.modelIds
        · intro m2 hm2
          obtain ⟨m, hm, rfl⟩ := List.mem_map.mp hm2
          have := hwf.modelIdsLt m hm
          split <;> simpa
        · refine nodup_map_update db.models _ _ modelKeyOf hwf.modelKeys
            (length_filter_le_one Model.id _ i (fun x hx => by simpa using hx)
              db.models hwf.modelIds) ?_
          intro x hx hcx y hy hcy
          have hyid : y.id ≠ i := by simpa using hcy
          exact fun he => hnoconf y hy hyid (by
            simp only [modelKeyOf] at he ⊢
            exact he.symm)
    · rw [if_neg hany] at h
      simp only [Except.ok.injEq] at h
      subst h
      exact hwf

theorem wf_setAgentDetails {db db2 : DB} {a : AgentArgs}
    (hwf : WF db) (h : setAgentDetails db a = .ok db2) : WF db2 := by
  have hrole := setAgentDetails_ok_role h
  unfold setAgentDetails at h
  rw [if_neg hrole] at h
  rcases hfind : getAgentByType db a.agent_role with _ | row
  · rw [hfind] at h
    simp only [Except.ok.injEq] at h
    subst h
    have hnot : ∀ r ∈ db.agents, r.agent_role ≠ a.agent_role := by
      intro r hr
      have := List.find?_eq_none.mp hfind r hr
      simpa using this
    refine ⟨hwf.provIds, hwf.provIdsLt, hwf.provNames, hwf.provDisplay, hwf.modelIds,
      hwf.modelIdsLt, hwf.modelKeys, ?_, ?_, ?_, ?_, ?_, hwf.taskIds, hwf.taskIdsLt,
      hwf.taskNames⟩
    · simp only [List.map_append, List.map_cons, List.map_nil]
      refine List.Nodup.append hwf.agentRoles (List.nodup_singleton _) ?_
      intro x hx hx1
      simp only [List.mem_singleton] at hx1
      subst hx1
      obtain ⟨r, hr, hrk⟩ := List.mem_map.mp hx
      exact hnot r hr hrk
    · intro r hr
      simp only [List.mem_append, List.mem_singleton] at hr
      rcases hr with hr | rfl
      · exact hwf.agentRolesNe r hr
      · exact hrole
    · intro r hr
      simp only [List.mem_append, List.mem_singleton] at hr
      rcases hr with hr | rfl
      · exact hwf.agentToolsSentinel r hr
      · exact mem_ensureDefaultTool _
    · intro r hr
      simp only [List.mem_append, List.mem_singleton] at hr
      rcases hr with hr | rfl
      · exact hwf.agentRL r hr
      · exact orDefault_ne (by decide)
    · intro r hr
      simp only [List.mem_append, List.mem_singleton] at hr
      rcases hr with hr | rfl
      · exact hwf.agentTC r hr
      · exact orDefault_ne (by decide)
  · rw [hfind] at h
    simp only [Except.ok.injEq] at h
    subst h
    refine ⟨hwf.provIds, hwf.provIdsLt, hwf.provNames, hwf.provDisplay, hwf.modelIds,
      hwf.modelIdsLt, hwf.modelKeys, ?_, ?_, ?_, ?_, ?_, hwf.taskIds, hwf.taskIdsLt,
      hwf.taskNames⟩
    · rw [map_key_of_update _ _ _ (fun r => by split <;> rfl)]
      exact hwf.agentRoles
    · intro r2 hr2
      obtain ⟨r, hr, rfl⟩ := List.mem_map.mp hr2
      have := hwf.agentRolesNe r hr
      split <;> simpa
    · intro r2 hr2
      obtain ⟨r, hr, rfl⟩ := List.mem_map.mp hr2
      split
      · exact mem_ensureDefaultTool _
      · exact hwf.agentToolsSentinel r hr
    · intro r2 hr2
      obtain ⟨r, hr, rfl⟩ := List.mem_map.mp hr2
      split
      · exact orDefault_ne (by decide)
      · exact hwf.agentRL r hr
    · intro r2 hr2
      obtain ⟨r, hr, rfl⟩ := List.mem_map.mp hr2
      split
      · exact orDefault_ne (by decide)
      · exact hwf.agentTC r hr

theorem wf_setAllowedTools (db : DB) (role : String) (tools : Option (List String))
    (hwf : WF db) : WF (setAllowedTools db role tools) := by
  unfold setAllowedTools
  refine ⟨hwf.provIds, hwf.provIdsLt, hwf.provNames, hwf.provDisplay, hwf.modelIds,
    hwf.modelIdsLt, hwf.modelKeys, ?_, ?_, ?_, ?_, ?_, hwf.taskIds, hwf.taskIdsLt,
    hwf.taskNames⟩
  · rw [map_key_of_update _ _ _ (fun r => by split <;> rfl)]
    exact hwf.agentRoles
  · intro r2 hr2
    obtain ⟨r, hr, rfl⟩ := List.mem_map.mp hr2
    have := hwf.agentRolesNe r hr
    split <;> simpa
  · intro r2 hr2
    obtain ⟨r, hr, rfl⟩ := List.mem_map.mp hr2
    split
    · exact mem_ensureDefaultTool _
    · exact hwf.agentToolsSentinel r hr
  · intro r2 hr2
    obtain ⟨r, hr, rfl⟩ := List.mem_map.mp hr2
    have := hwf.agentRL r hr
    split <;> simpa
  · intro r2 hr2
    obtain ⟨r, hr, rfl⟩ := List.mem_map.mp hr2
    have := hwf.agentTC r hr
    split <;> simpa

theorem wf_setDefaultPrompts (db : DB) (role : String) (dp up : Option String)
    (hwf : WF db) : WF (setDefaultPrompts db role dp up) := by
  unfold setDefaultPrompts
  refine ⟨hwf.provIds, hwf.provIdsLt, hwf.provNames, hwf.provDisplay, hwf.modelIds,
    hwf.modelIdsLt, hwf.modelKeys, ?_, ?_, ?_, ?_, ?_, hwf.taskIds, hwf.taskIdsLt,
    hwf.taskNames⟩
  · rw [map_key_of_update _ _ _ (fun r => by split <;> rfl)]
    exact hwf.agentRoles
  · intro r2 hr2
    obtain ⟨r, hr, rfl⟩ := List.mem_map.mp hr2
    have := hwf.agentRolesNe r hr
    split <;> simpa
  · intro r2 hr2
    obtain ⟨r, hr, rfl⟩ := List.mem_map.mp hr2
    have := hwf.agentToolsSentinel r hr
    split <;> simpa
  · intro r2 hr2
    obtain ⟨r, hr, rfl⟩ := List.mem_map.mp hr2
    have := hwf.agentRL r hr
    split <;> simpa
  · intro r2 hr2
    obtain ⟨r, hr, rfl⟩ := List.mem_map.mp hr2
    have := hwf.agentTC r hr
    split <;> simpa

theorem wf_createTask {db db2 : DB} {n p : String}
    (hwf : WF db) (h : createTask db n p = .ok db2) : WF db2 := by
  unfold createTask at h
  by_cases hany : db.tasks.any (fun t => t.task_name == n) = true
  · rw [if_pos hany] at h
    exact absurd h (by simp)
  · rw [if_neg hany] at h
    simp only [Except.ok.injEq] at h
    subst h
    have hnamefree : ∀ t ∈ db.tasks, t.task_name ≠ n := by
      intro t ht he
      exact hany (List.any_eq_true.mpr ⟨t, ht, by simp [he]⟩)
    refine ⟨hwf.provIds, hwf.provIdsLt, hwf.provNames, hwf.provDisplay, hwf.modelIds,
      hwf.modelIdsLt, hwf.modelKeys, hwf.agentRoles, hwf.agentRolesNe,
      hwf.agentToolsSentinel, hwf.agentRL, hwf.agentTC, ?_, ?_, ?_⟩
    · simp only [List.map_append, List.map_cons, List.map_nil]
      refine List.Nodup.append hwf.taskIds (List.nodup_singleton _) ?_
      intro x hx hx1
      simp only [List.mem_singleton] at hx1
      subst hx1
      obtain ⟨t, ht, htk⟩ := List.mem_map.mp hx
      exact absurd htk (Nat.ne_of_lt (hwf.taskIdsLt t ht))
    · intro t ht
      simp only [List.mem_append, List.mem_singleton] at ht
      rcases ht with ht | rfl
      · exact Nat.lt_succ_of_lt (hwf.taskIdsLt t ht)
      · exact Nat.lt_succ_self _
    · simp only [List.map_append, List.map_cons, List.map_nil]
      refine List.Nodup.append hwf.taskNames (List.nodup_singleton _) ?_
      intro x hx hx1
      simp only [List.mem_singleton] at hx1
      subst hx1
      obtain ⟨t, ht, htk⟩ := List.mem_map.mp hx
      exact hnamefree t ht htk

theorem wf_updateTask {db db2 : DB} {i : Nat} {n p : String} {c : Nat}
    (hwf : WF db) (h : updateTask db i n p = .ok (db2, c)) : WF db2 := by
  unfold updateTask at h
  by_cases hempty : (db.tasks.filter (fun t => t.id == i)).isEmpty = true
  · rw [if_pos hempty] at h
    simp only [Except.ok.injEq, Prod.mk.injEq] at h
    rw [← h.1]
    exact hwf
  · rw [if_neg hempty] at h
    by_cases hconf : db.tasks.any (fun t => t.id != i && t.task_name == n) = true
    · rw [if_pos hconf] at h
      exact absurd h (by simp)
    · rw [if_neg hconf] at h
      simp only [Except.ok.injEq, Prod.mk.injEq] at h
      rw [← h.1]
      have hnoconf : ∀ t ∈ db.tasks, t.id ≠ i → t.task_name ≠ n := by
        intro t ht hid he
        exact hconf (List.any_eq_true.mpr ⟨t, ht, by simp [hid, he]⟩)
      refine ⟨hwf.provIds, hwf.provIdsLt, hwf.provNames, hwf.provDisplay, hwf.modelIds,
        hwf.modelIdsLt, hwf.modelKeys, hwf.agentRoles, hwf.agentRolesNe,
        hwf.agentToolsSentinel, hwf.agentRL, hwf.agentTC, ?_, ?_, ?_⟩
      · rw [map_key_of_update _ _ _ (fun t => by split <;> rfl)]
        exact hwf.taskIds
      · intro t2 ht2
        obtain ⟨t, ht, rfl⟩ := List.mem_map.mp ht2
        have := hwf.taskIdsLt t ht
        split <;> simpa
      · refine nodup_map_update db.tasks _ _ Task.task_name hwf.taskNames
          (length_filter_le_one Task.id _ i (fun x hx => by simpa using hx)
            db.tasks hwf.taskIds) ?_
        intro x hx hcx y hy hcy
        have hyid : y.id ≠ i := by simpa using hcy
        exact fun he => hnoconf y hy hyid he.symm

/-- Every reachable database satisfies the row invariants. -/
theorem wf_of_reachable {db : DB} (h : Reachable db) : WF db := by
  induction h with
  | empty =>
    exact ⟨by simp [emptyDB], by simp [emptyDB], by simp [emptyDB], by simp [emptyDB],
      by simp [emptyDB], by simp [emptyDB], by simp [emptyDB], by simp [emptyDB],
      by simp [emptyDB], by simp [emptyDB], by simp [emptyDB], by simp [emptyDB],
      by simp [emptyDB], by simp [emptyDB], by simp [emptyDB]⟩
  | provUpsert _ hok ih => exact wf_createOrUpdateProvider ih hok
  | provDelete i _ ih => exact wf_deleteProvider _ i ih
  | modelUpsert _ hok ih => exact wf_createOrUpdateModel ih hok
  | modelDelete i _ ih => exact wf_deleteModel _ i ih
  | agentUpsert _ hok ih => exact wf_setAgentDetails ih hok
  | agentTools role tools _ ih => exact wf_setAllowedTools _ role tools ih
  | agentPrompts role dp up _ ih => exact wf_setDefaultPrompts _ role dp up ih
  | agentDelete role _ ih => exact wf_deleteAgentType _ role ih
  | taskCreate _ hok ih => exact wf_createTask ih hok
  | taskUpdate _ hok ih => exact wf_updateTask ih hok
  | taskDelete i _ ih => exact wf_deleteTask _ i ih

/-! ### Lookup lemmas for the import maps -/

theorem find?_eq_head_filter (l : List α) (p : α → Bool) :
    l.find? p = (l.filter p).head? := by
  induction l with
  | nil => rfl
  | cons a as ih =>
    rcases hp : p a with _ | _
    · rw [List.find?_cons_of_neg _ (by simp [hp]), List.filter_cons_of_neg (by simp [hp]),
        ih]
    · rw [List.find?_cons_of_pos _ hp, List.filter_cons_of_pos hp]
      rfl

theorem find?_over_map {β : Type v} (l : List α) (f : α → β) (p : β → Bool) :
    (l.map f).find? p = (l.find? (fun a => p (f a))).map f := by
  induction l with
  | nil => rfl
  | cons a as ih =>
    simp only [List.map_cons, List.find?]
    rcases hp : p (f a) with _ | _ <;> simp [hp, ih]

/-- With pairwise-distinct keys, a member pinned by its key is what find?
returns. -/
theorem find?_key_unique {β : Type v} (key : α → β) (p : α → Bool) (a : α)
    (hp : ∀ x, p x = true ↔ key x = key a) (l : List α)
    (hn : (l.map key).Nodup) (ha : a ∈ l) : l.find? p = some a := by
  rw [find?_eq_head_filter, filter_key_singleton key p a hp l hn ha]
  rfl

/-- JS Map lookup over pairs with pairwise-distinct keys finds the pinned
pair, later-entries-win notwithstanding. -/
theorem mapGet_of_nodup (pairs : List (String × Nat)) (e : String × Nat)
    (hn : (pairs.map Prod.fst).Nodup) (he : e ∈ pairs) :
    mapGet pairs e.1 = some e.2 := by
  unfold mapGet
  have hrev : pairs.reverse.find? (fun q => q.1 == e.1) = some e := by
    refine find?_key_unique Prod.fst _ e (fun x => by simp) pairs.reverse ?_ ?_
    · rw [List.map_reverse]
      exact List.nodup_reverse.mpr hn
    · simpa using he
  rw [hrev]
  rfl

theorem mapGet_none (pairs : List (String × Nat)) (k : String)
    (hmiss : ∀ q ∈ pairs, q.1 ≠ k) : mapGet pairs k = none := by
  unfold mapGet
  rw [List.find?_eq_none.mpr (fun q hq => by simpa using hmiss q (by simpa using hq))]
  rfl

/-! ### The freshly inserted rows of an import into a key-disjoint store -/

/-- Rows the providers loop inserts, with their autoincrement ids. -/
def provRowsFrom (n : Nat) : List ProviderY → List Provider
  | [] => []
  | y :: ys =>
    ⟨n, y.provider_name, safeDisplayName (some y.display_name) y.provider_name,
      y.extra_info⟩ :: provRowsFrom (n + 1) ys

theorem provRowsFrom_map_name (n : Nat) (ys : List ProviderY) :
    (provRowsFrom n ys).map Provider.provider_name = ys.map ProviderY.provider_name := by
  induction ys generalizing n with
  | nil => rfl
  | cons y ys ih => simp [provRowsFrom, ih]

theorem provRowsFrom_map_id (n : Nat) (ys : List ProviderY) :
    (provRowsFrom n ys).map Provider.id = List.range' n ys.length := by
  induction ys generalizing n with
  | nil => rfl
  | cons y ys ih => simp [provRowsFrom, ih, List.range']

theorem provRowsFrom_map_fields (n : Nat) (ys : List ProviderY) :
    (provRowsFrom n ys).map provFields = ys.map (fun y =>
      (y.provider_name, safeDisplayName (some y.display_name) y.provider_name,
        y.extra_info)) := by
  induction ys generalizing n with
  | nil => rfl
  | cons y ys ih => simp [provRowsFrom, ih, provFields]

/-- The providers loop over names disjoint from the store and pairwise
distinct is a pure chain of inserts. -/
theorem importProviders_fresh :
    ∀ (ys : List ProviderY) (db : DB), (ys.map ProviderY.provider_name).Nodup →
      (∀ y ∈ ys, ∀ p ∈ db.providers, p.provider_name ≠ y.provider_name) →
      importProviders ys db =
        ({ db with providers := db.providers ++ provRowsFrom db.nextProviderId ys,
                   nextProviderId := db.nextProviderId + ys.length }, none) := by
  intro ys
  induction ys with
  | nil => intro db _ _; simp [importProviders, provRowsFrom]
  | cons y ys ih =>
    intro db hn hdisj
    have hany : db.providers.any (fun p => p.provider_name == y.provider_name) = false := by
      simp only [List.any_eq_false, beq_iff_eq]
      exact fun p hp => hdisj y (List.mem_cons_self y ys) p hp
    simp only [importProviders, createOrUpdateProvider, hany, Bool.false_eq_true,
      if_false]
    simp only [List.map_cons, List.nodup_cons] at hn
    rw [ih _ hn.2 ?_]
    · simp only [provRowsFrom, Prod.mk.injEq, and_true]
      congr 1
      · rw [List.append_assoc, orDefault_some_empty]
        rfl
      · simp only [List.length_cons]
        omega
    · intro z hz p hp
      simp only [List.mem_append, List.mem_singleton] at hp
      rcases hp with hp | rfl
      · exact hdisj z (List.mem_cons_of_mem y hz) p hp
      · simp only []
        intro he
        exact hn.1 (he ▸ List.mem_map_of_mem ProviderY.provider_name hz)

/-- Rows the models loop inserts, with their autoincrement ids and resolved
provider ids. -/
def modelRowsFrom (n : Nat) (pm : List (String × Nat)) : List ModelY → List Model
  | [] => []
  | y :: ys =>
    ⟨n, (provLookup pm y.provider_name).getD 0, y.model_name, y.display_name,
      y.extra_info, y.supports_reasoning⟩ :: modelRowsFrom (n + 1) pm ys

theorem modelRowsFrom_map_key (n : Nat) (pm : List (String × Nat)) (ys : List ModelY) :
    (modelRowsFrom n pm ys).map modelKeyOf =
      ys.map (fun y => ((provLookup pm y.provider_name).getD 0, y.model_name)) := by
  induction ys generalizing n with
  | nil => rfl
  | cons y ys ih => simp [modelRowsFrom, ih, modelKeyOf]

theorem modelRowsFrom_map_id (n : Nat) (pm : List (String × Nat)) (ys : List ModelY) :
    (modelRowsFrom n pm ys).map Model.id = List.range' n ys.length := by
  induction ys generalizing n with
  | nil => rfl
  | cons y ys ih => simp [modelRowsFrom, ih, List.range']

/-- The models loop over resolvable entries with fresh pairwise-distinct
keys is a pure chain of inserts. -/
theorem importModels_fresh (pm : List (String × Nat)) :
    ∀ (ys : List ModelY) (db : DB),
      (∀ y ∈ ys, provLookup pm y.provider_name ≠ none) →
      ((ys.map (fun y =>
        ((provLookup pm y.provider_name).getD 0, y.model_name))).Nodup) →
      (∀ y ∈ ys, ∀ m ∈ db.models,
        modelKeyOf m ≠ ((provLookup pm y.provider_name).getD 0, y.model_name)) →
      importModels pm ys db =
        ({ db with models := db.models ++ modelRowsFrom db.nextModelId pm ys,
                   nextModelId := db.nextModelId + ys.length }, none) := by
  intro ys
  induction ys with
  | nil => intro db _ _ _; simp [importModels, modelRowsFrom]
  | cons y ys ih =>
    intro db hres hn hdisj
    rcases hlook : provLookup pm y.provider_name with _ | pid
    · exact absurd hlook (hres y (List.mem_cons_self y ys))
    · have hgetd : (provLookup pm y.provider_name).getD 0 = pid := by rw [hlook]; rfl
      have hany : db.models.any
          (fun m => m.provider_id == pid && m.model_name == y.model_name) = false := by
        simp only [List.any_eq_false, Bool.and_eq_true, beq_iff_eq, not_and]
        intro m hm h1 h2
        exact hdisj y (List.mem_cons_self y ys) m hm
          (by rw [hgetd]; simp [modelKeyOf, h1, h2])
      simp only [importModels, hlook, createOrUpdateModel, hany, Bool.false_eq_true,
        if_false]
      simp only [List.map_cons, List.nodup_cons] at hn
      rw [ih _ (fun z hz => hres z (List.mem_cons_of_mem y hz)) hn.2 ?_]
      · simp only [modelRowsFrom, Prod.mk.injEq, and_true]
        congr 1
        · rw [List.append_assoc, orDefault_some_empty, hgetd]
          rfl
        · simp only [List.length_cons]
          omega
      · intro z hz m hm
        simp only [List.mem_append, List.mem_singleton] at hm
        rcases hm with hm | rfl
        · exact hdisj z (List.mem_cons_of_mem y hz) m hm
        · simp only [modelKeyOf]
          intro he
          rw [← hgetd] at he
          exact hn.1 (by
            rw [he]
            exact List.mem_map_of_mem _ hz)

/-- Rows the agents loop inserts, with their autoincrement ids and resolved
model references. -/
def agentRowsFrom (n : Nat) (mm : List (String × Nat)) : List AgentY → List AgentRole
  | [] => []
  | y :: ys =>
    ⟨n, y.agent_role, y.agent_description, ensureDefaultTool (some y.allowed_tools),
      y.default_developer_prompt, y.default_user_prompt, resolveRef mm y,
      orDefault (some y.reasoning_level) "medium",
      orDefault (some y.tool_choice) "auto"⟩ :: agentRowsFrom (n + 1) mm ys

/-- The agents loop over nonempty pairwise-distinct roles absent from the
store is a pure chain of inserts. -/
theorem importAgents_fresh (mm : List (String × Nat)) :
    ∀ (ys : List AgentY) (db : DB),
      (∀ y ∈ ys, y.agent_role ≠ "") → ((ys.map AgentY.agent_role).Nodup) →
      (∀ y ∈ ys, ∀ r ∈ db.agents, r.agent_role ≠ y.agent_role) →
      importAgents mm ys db =
        ({ db with agents := db.agents ++ agentRowsFrom db.nextAgentId mm ys,
                   nextAgentId := db.nextAgentId + ys.length }, none) := by
  intro ys
  induction ys with
  | nil => intro db _ _ _; simp [importAgents, agentRowsFrom]
  | cons y ys ih =>
    intro db hne hn hdisj
    have hfind : getAgentByType db y.agent_role = none :=
      List.find?_eq_none.mpr (fun r hr => by
        simpa using hdisj y (List.mem_cons_self y ys) r hr)
    simp only [importAgents, setAgentDetails,
      if_neg (hne y (List.mem_cons_self y ys)), hfind]
    simp only [List.map_cons, List.nodup_cons] at hn
    rw [ih _ (fun z hz => hne z (List.mem_cons_of_mem y hz)) hn.2 ?_]
    · simp only [agentRowsFrom, Prod.mk.injEq, and_true]
      congr 1
      · rw [List.append_assoc, orDefault_some_empty, orDefault_some_empty,
          orDefault_some_empty]
        rfl
      · simp only [List.length_cons]
        omega
    · intro z hz r hr
      simp only [List.mem_append, List.mem_singleton] at hr
      rcases hr with hr | rfl
      · exact hdisj z (List.mem_cons_of_mem y hz) r hr
      · simp only []
        intro he
        exact hn.1 (he ▸ List.mem_map_of_mem AgentY.agent_role hz)

/-- Rows the tasks loop inserts. -/
def taskRowsFrom (n : Nat) : List TaskY → List Task
  | [] => []
  | y :: ys => ⟨n, y.task_name, y.task_prompt⟩ :: taskRowsFrom (n + 1) ys

/-- The tasks loop over pairwise-distinct names absent from the store is a
pure chain of inserts. -/
theorem importTasks_fresh :
    ∀ (ys : List TaskY) (db : DB), ((ys.map TaskY.task_name).Nodup) →
      (∀ y ∈ ys, ∀ t ∈ db.tasks, t.task_name ≠ y.task_name) →
      importTasks ys db =
        ({ db with tasks := db.tasks ++ taskRowsFrom db.nextTaskId ys,
                   nextTaskId := db.nextTaskId + ys.length }, none) := by
  intro ys
  induction ys with
  | nil => intro db _ _; simp [importTasks, taskRowsFrom]
  | cons y ys ih =>
    intro db hn hdisj
    have hany : db.tasks.any (fun t => t.task_name == y.task_name) = false := by
      simp only [List.any_eq_false, beq_iff_eq]
      exact fun t ht => hdisj y (List.mem_cons_self y ys) t ht
    simp only [importTasks, createTask, hany, Bool.false_eq_true, if_false]
    simp only [List.map_cons, List.nodup_cons] at hn
    rw [ih _ hn.2 ?_]
    · simp only [taskRowsFrom, Prod.mk.injEq, and_true]
      congr 1
      · rw [List.append_assoc]
        rfl
      · simp only [List.length_cons]
        omega
    · intro z hz t ht
      simp only [List.mem_append, List.mem_singleton] at ht
      rcases ht with ht | rfl
      · exact hdisj z (List.mem_cons_of_mem y hz) t ht
      · simp only []
        intro he
        exact hn.1 (he ▸ List.mem_map_of_mem TaskY.task_name hz)

/-! ### Small bridging lemmas for the round trip -/

theorem orDefault_some_ne {s : String} (d : String) (h : s ≠ "") :
    orDefault (some s) d = s := by
  simp [orDefault, h]

theorem ensureDefaultTool_of_mem {ts : List String} (h : DEFAULT_TOOL ∈ ts) :
    ensureDefaultTool (some ts) = ts := by
  simp [ensureDefaultTool, h]

/-- safeDisplayName is the identity on every stored display value (stored
values satisfy the blank-display convention). -/
theorem safeDisplayName_stored (d pn : String) (hinv : jsTrim d = "" → d = pn) :
    safeDisplayName (some d) pn = d := by
  simp only [safeDisplayName]
  by_cases hc : (d != "" && jsTrim d != "") = true
  · rw [if_pos hc]
  · rw [if_neg hc]
    simp only [Bool.and_eq_true, bne_iff_ne, ne_eq, not_and, not_not] at hc
    by_cases hd : d = ""
    · rw [(hinv (by rw [hd]; rfl))]
    · exact (hinv (hc hd)).symm

/-- Two members of a list with pairwise-distinct keys sharing a key are the
same row. -/
theorem eq_of_key_nodup {β : Type v} (key : α → β) (l : List α)
    (hn : (l.map key).Nodup) {q1 q2 : α} (h1 : q1 ∈ l) (h2 : q2 ∈ l)
    (hk : key q1 = key q2) : q1 = q2 := by
  induction l with
  | nil => exact absurd h1 (List.not_mem_nil q1)
  | cons b bs ih =>
    simp only [List.map_cons, List.nodup_cons] at hn
    rcases List.mem_cons.mp h1 with rfl | hm1
    · rcases List.mem_cons.mp h2 with rfl | hm2
      · rfl
      · exact absurd (List.mem_map.mpr ⟨q2, hm2, hk.symm⟩) hn.1
    · rcases List.mem_cons.mp h2 with rfl | hm2
      · exact absurd (List.mem_map.mpr ⟨q1, hm1, hk⟩) hn.1
      · exact ih hn.2 hm1 hm2

/-- Key distinctness transfers backwards along a function that determines
the other key on the list's members. -/
theorem nodup_map_of_injective_on {β : Type v} {γ : Type w} (f : α → β) (g : α → γ)
    (l : List α) (hg : (l.map g).Nodup)
    (h : ∀ x ∈ l, ∀ y ∈ l, f x = f y → g x = g y) : (l.map f).Nodup := by
  induction l with
  | nil => simp
  | cons a as ih =>
    simp only [List.map_cons, List.nodup_cons] at hg ⊢
    constructor
    · intro hmem
      obtain ⟨x, hx, hxk⟩ := List.mem_map.mp hmem
      exact hg.1 (List.mem_map.mpr ⟨x, hx,
        h x (List.mem_cons_of_mem a hx) a (List.mem_cons_self a as) hxk⟩)
    · exact ih hg.2 (fun x hx y hy =>
        h x (List.mem_cons_of_mem a hx) y (List.mem_cons_of_mem a hy))

theorem getProviderById_of_mem (db : DB) {q : Provider}
    (hn : (db.providers.map Provider.id).Nodup) (hq : q ∈ db.providers) :
    getProviderById db q.id = some q :=
  find?_key_unique Provider.id _ q (fun x => by simp) db.providers hn hq

theorem getModelById_of_mem (db : DB) {m : Model}
    (hn : (db.models.map Model.id).Nodup) (hm : m ∈ db.models) :
    getModelById db m.id = some m :=
  find?_key_unique Model.id _ m (fun x => by simp) db.models hn hm

theorem modelRowsFrom_mem (pm : List (String × Nat)) :
    ∀ (ys : List ModelY) (n : Nat), ∀ y ∈ ys, ∃ mr ∈ modelRowsFrom n pm ys,
      mr.provider_id = (provLookup pm y.provider_name).getD 0 ∧
      mr.model_name = y.model_name := by
  intro ys
  induction ys with
  | nil => intro n y hy; exact absurd hy (List.not_mem_nil y)
  | cons z ys ih =>
    intro n y hy
    rcases List.mem_cons.mp hy with rfl | hm
    · exact ⟨_, List.mem_cons_self _ _, rfl, rfl⟩
    · obtain ⟨mr, hmr, hp, hm2⟩ := ih (n + 1) y hm
      exact ⟨mr, List.mem_cons_of_mem _ hmr, hp, hm2⟩

theorem modelRowsFrom_view {γ : Type w} (pm : List (String × Nat))
    (g : Nat → String → String → String → Bool → γ) :
    ∀ (ys : List ModelY) (n : Nat),
      (modelRowsFrom n pm ys).map (fun m =>
        g m.provider_id m.model_name m.display_name m.extra_info m.supports_reasoning) =
      ys.map (fun y => g ((provLookup pm y.provider_name).getD 0) y.model_name
        y.display_name y.extra_info y.supports_reasoning) := by
  intro ys
  induction ys with
  | nil => intro n; rfl
  | cons y ys ih => intro n; simp [modelRowsFrom, ih (n + 1)]

theorem agentRowsFrom_view {γ : Type w} (mm : List (String × Nat))
    (g : String → String → List String → String → String → Option Nat → String →
      String → γ) :
    ∀ (ys : List AgentY) (n : Nat),
      (agentRowsFrom n mm ys).map (fun r =>
        g r.agent_role r.agent_description r.allowed_tools r.default_developer_prompt
          r.default_user_prompt r.model_id r.reasoning_level r.tool_choice) =
      ys.map (fun y => g y.agent_role y.agent_description
        (ensureDefaultTool (some y.allowed_tools)) y.default_developer_prompt
        y.default_user_prompt (resolveRef mm y)
        (orDefault (some y.reasoning_level) "medium")
        (orDefault (some y.tool_choice) "auto")) := by
  intro ys
  induction ys with
  | nil => intro n; rfl
  | cons y ys ih => intro n; simp [agentRowsFrom, ih (n + 1)]

theorem taskRowsFrom_view :
    ∀ (ys : List TaskY) (n : Nat),
      (taskRowsFrom n ys).map (fun t => (t.task_name, t.task_prompt)) =
      ys.map (fun y => (y.task_name, y.task_prompt)) := by
  intro ys
  induction ys with
  | nil => intro n; rfl
  | cons y ys ih => intro n; simp [taskRowsFrom, ih (n + 1)]

theorem agentRowsFrom_map_role (mm : List (String × Nat)) :
    ∀ (ys : List AgentY) (n : Nat),
      (agentRowsFrom n mm ys).map AgentRole.agent_role = ys.map AgentY.agent_role := by
  intro ys
  induction ys with
  | nil => intro n; rfl
  | cons y ys ih => intro n; simp [agentRowsFrom, ih (n + 1)]

theorem taskRowsFrom_map_name :
    ∀ (ys : List TaskY) (n : Nat),
      (taskRowsFrom n ys).map Task.task_name = ys.map TaskY.task_name := by
  intro ys
  induction ys with
  | nil => intro n; rfl
  | cons y ys ih => intro n; simp [taskRowsFrom, ih (n + 1)]

/-! ### The states the round-trip import passes through -/

/-- What exportTemplate writes for one provider row. -/
def exportProvY (p : Provider) : ProviderY :=
  ⟨p.provider_name, p.display_name, p.extra_info⟩

/-- What exportTemplate writes for one model row (through the LEFT JOIN). -/
def exportModelY (db : DB) (m : Model) : ModelY :=
  ⟨provNameOfId db m.provider_id, m.model_name, m.display_name, m.extra_info,
    m.supports_reasoning⟩

/-- What exportTemplate writes for one agent row (through the LEFT JOINs). -/
def exportAgentY (db : DB) (r : AgentRole) : AgentY :=
  ⟨r.agent_role, r.agent_description, r.allowed_tools, r.default_developer_prompt,
    r.default_user_prompt, r.reasoning_level, r.tool_choice,
    ((r.model_id.bind (getModelById db)).bind
      (fun mo => getProviderById db mo.provider_id)).map (·.provider_name),
    (r.model_id.bind (getModelById db)).map (·.model_name)⟩

/-- What exportTemplate writes for one task row. -/
def exportTaskY (t : Task) : TaskY := ⟨t.task_name, t.task_prompt⟩

theorem export_providers_perm (db : DB) :
    ((exportTemplate db).providers).Perm (db.providers.map exportProvY) := by
  have h1 : (exportTemplate db).providers = (listProviders db).map exportProvY := rfl
  rw [h1]
  exact (sortBy_perm _ _).map exportProvY

theorem export_models_perm (db : DB) :
    ((exportTemplate db).models).Perm (db.models.map (exportModelY db)) := by
  have h1 : (exportTemplate db).models =
      ((sortBy modelJoinLe (db.models.map (fun m =>
        let p := getProviderById db m.provider_id
        (⟨m.id, m.provider_id, m.model_name, m.display_name, m.extra_info,
          m.supports_reasoning, p.map (·.provider_name),
          p.map (·.display_name)⟩ : ModelJoinRow)))).map (fun j =>
        (⟨j.provider_name, j.model_name, j.display_name, j.extra_info,
          j.supports_reasoning⟩ : ModelY))) := rfl
  rw [h1]
  refine ((sortBy_perm _ _).map _).trans ?_
  rw [List.map_map]
  exact List.Perm.of_eq rfl

theorem export_agents_perm (db : DB) :
    ((exportTemplate db).agents).Perm (db.agents.map (exportAgentY db)) := by
  have h1 : (exportTemplate db).agents =
      (listAgentTypes db).map (fun a => exportAgentY db a) := by
    show (listAgentTypesWithModelInfo db).map _ = _
    unfold listAgentTypesWithModelInfo
    rw [List.map_map]
    rfl
  rw [h1]
  exact (sortBy_perm _ _).map _

theorem export_tasks_perm (db : DB) :
    ((exportTemplate db).tasks).Perm (db.tasks.map exportTaskY) := by
  have h1 : (exportTemplate db).tasks = (getAllTasks db).map exportTaskY := rfl
  rw [h1]
  exact (sortBy_perm _ _).map exportTaskY

/-- State after the providers stage of the round-trip import. -/
def rtDbP (db : DB) : DB :=
  ⟨provRowsFrom 1 (exportTemplate db).providers, [], [], [],
    1 + (exportTemplate db).providers.length, 1, 1, 1⟩

/-- The provider map of the round-trip import. -/
def rtPm (db : DB) : List (String × Nat) := mkProvMap (rtDbP db)

/-- State after the models stage of the round-trip import. -/
def rtDbM (db : DB) : DB :=
  { rtDbP db with
    models := modelRowsFrom 1 (rtPm db) (exportTemplate db).models,
    nextModelId := 1 + (exportTemplate db).models.length }

/-- The model map of the round-trip import. -/
def rtMm (db : DB) : List (String × Nat) := mkModelMap (rtDbM db)

/-- State after the agents stage of the round-trip import. -/
def rtDbA (db : DB) : DB :=
  { rtDbM db with
    agents := agentRowsFrom 1 (rtMm db) (exportTemplate db).agents,
    nextAgentId := 1 + (exportTemplate db).agents.length }

/-- Final state of the round-trip import. -/
def rtDbF (db : DB) : DB :=
  { rtDbA db with
    tasks := taskRowsFrom 1 (exportTemplate db).tasks,
    nextTaskId := 1 + (exportTemplate db).tasks.length }

theorem rt_export_pnames_perm (db : DB) :
    ((exportTemplate db).providers.map ProviderY.provider_name).Perm
      (db.providers.map Provider.provider_name) := by
  refine ((export_providers_perm db).map _).trans ?_
  rw [List.map_map]
  exact List.Perm.of_eq rfl

theorem rt_pnames_nodup (db : DB) (hwf : WF db) :
    ((exportTemplate db).providers.map ProviderY.provider_name).Nodup :=
  (rt_export_pnames_perm db).nodup_iff.mpr hwf.provNames

theorem rt_stage_providers (db : DB) (hwf : WF db) :
    importProviders (exportTemplate db).providers emptyDB = (rtDbP db, none) := by
  rw [importProviders_fresh _ emptyDB (rt_pnames_nodup db hwf)
    (fun y _ p hp => absurd hp (List.not_mem_nil p))]
  rfl

theorem rtDbP_names (db : DB) :
    (rtDbP db).providers.map Provider.provider_name =
      (exportTemplate db).providers.map ProviderY.provider_name :=
  provRowsFrom_map_name 1 _

theorem rtDbP_ids_nodup (db : DB) : ((rtDbP db).providers.map Provider.id).Nodup := by
  have h : (rtDbP db).providers = provRowsFrom 1 (exportTemplate db).providers := rfl
  rw [h, provRowsFrom_map_id]
  exact List.nodup_range' _ _ 1 Nat.one_pos

theorem rt_provMap_keys (db : DB) (hwf : WF db) :
    ((rtPm db).map Prod.fst).Nodup := by
  unfold rtPm mkProvMap
  rw [List.map_map]
  have h : ((listProviders (rtDbP db)).map
      (fun p => p.provider_name)).Nodup := by
    refine ((sortBy_perm _ _).map _).nodup_iff.mpr ?_
    have he : (rtDbP db).providers.map (fun p => p.provider_name) =
        (rtDbP db).providers.map Provider.provider_name := rfl
    rw [he, rtDbP_names]
    exact rt_pnames_nodup db hwf
  exact h

theorem rt_provLookup (db : DB) (hwf : WF db) (q : Provider)
    (hq : q ∈ (rtDbP db).providers) :
    mapGet (rtPm db) q.provider_name = some q.id := by
  have hm : (q.provider_name, q.id) ∈ rtPm db := by
    unfold rtPm mkProvMap
    exact List.mem_map_of_mem _ ((sortBy_perm _ _).mem_iff.mpr hq)
  exact mapGet_of_nodup _ (q.provider_name, q.id) (rt_provMap_keys db hwf) hm

theorem rt_mem_pys (db : DB) {y : ProviderY}
    (hy : y ∈ (exportTemplate db).providers) :
    ∃ p ∈ db.providers, y = exportProvY p := by
  obtain ⟨p, hp, he⟩ := List.mem_map.mp ((export_providers_perm db).mem_iff.mp hy)
  exact ⟨p, hp, he.symm⟩

theorem rt_mem_mys (db : DB) {y : ModelY}
    (hy : y ∈ (exportTemplate db).models) :
    ∃ m ∈ db.models, y = exportModelY db m := by
  obtain ⟨m, hm, he⟩ := List.mem_map.mp ((export_models_perm db).mem_iff.mp hy)
  exact ⟨m, hm, he.symm⟩

theorem rt_mem_ays (db : DB) {y : AgentY}
    (hy : y ∈ (exportTemplate db).agents) :
    ∃ r ∈ db.agents, y = exportAgentY db r := by
  obtain ⟨r, hr, he⟩ := List.mem_map.mp ((export_agents_perm db).mem_iff.mp hy)
  exact ⟨r, hr, he.symm⟩

theorem rt_mem_tys (db : DB) {y : TaskY}
    (hy : y ∈ (exportTemplate db).tasks) :
    ∃ t ∈ db.tasks, y = exportTaskY t := by
  obtain ⟨t, ht, he⟩ := List.mem_map.mp ((export_tasks_perm db).mem_iff.mp hy)
  exact ⟨t, ht, he.symm⟩

theorem rt_y_pn (db : DB) {y : ModelY} {m : Model} {p : Provider}
    (hye : y = exportModelY db m)
    (hgp : getProviderById db m.provider_id = some p) :
    y.provider_name = some p.provider_name := by
  rw [hye]
  show provNameOfId db m.provider_id = some p.provider_name
  rw [provNameOfId, hgp]
  rfl

/-- Every exported model entry resolves through the new provider map to the
id of the freshly inserted provider row carrying its provider's name. -/
theorem rt_model_resolve (db : DB) (hwf : WF db)
    (hfk : ∀ m ∈ db.models, (getProviderById db m.provider_id).isSome = true)
    {y : ModelY} (hy : y ∈ (exportTemplate db).models) :
    ∃ (m : Model) (p q : Provider), m ∈ db.models ∧ p ∈ db.providers ∧
      q ∈ (rtDbP db).providers ∧ y = exportModelY db m ∧
      getProviderById db m.provider_id = some p ∧
      q.provider_name = p.provider_name ∧
      provLookup (rtPm db) y.provider_name = some q.id := by
  obtain ⟨m, hm, hye⟩ := rt_mem_mys db hy
  obtain ⟨p, hgp⟩ := Option.isSome_iff_exists.mp (hfk m hm)
  have hpmem : p ∈ db.providers := List.mem_of_find?_eq_some hgp
  have hname_mem : p.provider_name ∈
      (rtDbP db).providers.map Provider.provider_name := by
    rw [rtDbP_names]
    exact (rt_export_pnames_perm db).mem_iff.mpr (List.mem_map_of_mem _ hpmem)
  obtain ⟨q, hqmem, hqname⟩ := List.mem_map.mp hname_mem
  refine ⟨m, p, q, hm, hpmem, hqmem, hye, hgp, hqname, ?_⟩
  rw [rt_y_pn db hye hgp]
  show mapGet (rtPm db) p.provider_name = some q.id
  rw [← hqname]
  exact rt_provLookup db hwf q hqmem

theorem rt_mkeys_str_nodup (db : DB)
    (hkeys : (db.models.map (fun m =>
      modelKey (provNameOfId db m.provider_id) m.model_name)).Nodup) :
    ((exportTemplate db).models.map (fun y =>
      modelKey y.provider_name y.model_name)).Nodup := by
  refine ((export_models_perm db).map _).nodup_iff.mpr ?_
  rw [List.map_map]
  exact hkeys

theorem rt_mkeys_nodup (db : DB) (hwf : WF db)
    (hfk : ∀ m ∈ db.models, (getProviderById db m.provider_id).isSome = true)
    (hkeys : (db.models.map (fun m =>
      modelKey (provNameOfId db m.provider_id) m.model_name)).Nodup) :
    ((exportTemplate db).models.map (fun y =>
      ((provLookup (rtPm db) y.provider_name).getD 0, y.model_name))).Nodup := by
  refine nodup_map_of_injective_on _
    (fun y => modelKey y.provider_name y.model_name) _
    (rt_mkeys_str_nodup db hkeys) ?_
  intro x hx y hy hf
  obtain ⟨mx, px, qx, _, _, hqxmem, hxe, hpx, hqxn, hlx⟩ :=
    rt_model_resolve db hwf hfk hx
  obtain ⟨my, py, qy, _, _, hqymem, hye, hpy, hqyn, hly⟩ :=
    rt_model_resolve db hwf hfk hy
  simp only [hlx, hly, Option.getD_some, Prod.mk.injEq] at hf
  obtain ⟨hid, hmn⟩ := hf
  have hq : qx = qy :=
    eq_of_key_nodup Provider.id _ (rtDbP_ids_nodup db) hqxmem hqymem hid
  have hxpn : x.provider_name = some qx.provider_name := by
    rw [rt_y_pn db hxe hpx, hqxn]
  have hypn : y.provider_name = some qy.provider_name := by
    rw [rt_y_pn db hye hpy, hqyn]
  show modelKey x.provider_name x.model_name = modelKey y.provider_name y.model_name
  rw [hxpn, hypn, hq, hmn]

theorem rt_stage_models (db : DB) (hwf : WF db)
    (hfk : ∀ m ∈ db.models, (getProviderById db m.provider_id).isSome = true)
    (hkeys : (db.models.map (fun m =>
      modelKey (provNameOfId db m.provider_id) m.model_name)).Nodup) :
    importModels (rtPm db) (exportTemplate db).models (rtDbP db) =
      (rtDbM db, none) := by
  rw [importModels_fresh (rtPm db) _ _ ?_ (rt_mkeys_nodup db hwf hfk hkeys) ?_]
  · rfl
  · intro y hy
    obtain ⟨m, p, q, _, _, _, _, _, _, hl⟩ := rt_model_resolve db hwf hfk hy
    rw [hl]
    exact Option.noConfusion
  · intro y _ m hm
    exact absurd hm (List.not_mem_nil m)

theorem rtDbM_models (db : DB) :
    (rtDbM db).models = modelRowsFrom 1 (rtPm db) (exportTemplate db).models := rfl

theorem rtDbM_mids_nodup (db : DB) : ((rtDbM db).models.map Model.id).Nodup := by
  rw [rtDbM_models, modelRowsFrom_map_id]
  exact List.nodup_range' _ _ 1 Nat.one_pos

/-- Looking up a freshly inserted provider row's id in any later state whose
providers table is still the one the providers stage left. -/
theorem rt_provName_q (db : DB) (e : DB)
    (hpe : e.providers = (rtDbP db).providers)
    {q : Provider} (hq : q ∈ (rtDbP db).providers) :
    provNameOfId e q.id = some q.provider_name := by
  rw [provNameOfId]
  have hn : (e.providers.map Provider.id).Nodup := by
    rw [hpe]
    exact rtDbP_ids_nodup db
  rw [getProviderById_of_mem e hn (by rw [hpe]; exact hq)]
  rfl

theorem rt_modelMap_keys_eq (db : DB) (hwf : WF db)
    (hfk : ∀ m ∈ db.models, (getProviderById db m.provider_id).isSome = true) :
    ((rtMm db).map Prod.fst).Perm
      ((exportTemplate db).models.map (fun y =>
        modelKey y.provider_name y.model_name)) := by
  have h1 : (rtMm db).map Prod.fst =
      (listModelsWithProviderInfo (rtDbM db)).map
        (fun j => modelKey j.provider_name j.model_name) := by
    unfold rtMm mkModelMap
    rw [List.map_map]
    rfl
  have h2 : ((listModelsWithProviderInfo (rtDbM db)).map
      (fun j => modelKey j.provider_name j.model_name)).Perm
      ((rtDbM db).models.map (fun m =>
        modelKey (provNameOfId (rtDbM db) m.provider_id) m.model_name)) := by
    unfold listModelsWithProviderInfo
    refine ((sortBy_perm _ _).map _).trans ?_
    rw [List.map_map]
    exact List.Perm.of_eq rfl
  have h3 : (rtDbM db).models.map (fun m =>
      modelKey (provNameOfId (rtDbM db) m.provider_id) m.model_name) =
      (exportTemplate db).models.map (fun y =>
        modelKey (provNameOfId (rtDbM db)
          ((provLookup (rtPm db) y.provider_name).getD 0)) y.model_name) := by
    rw [rtDbM_models]
    exact modelRowsFrom_view (rtPm db)
      (fun pid mn _ _ _ => modelKey (provNameOfId (rtDbM db) pid) mn) _ 1
  have h4 : (exportTemplate db).models.map (fun y =>
      modelKey (provNameOfId (rtDbM db)
        ((provLookup (rtPm db) y.provider_name).getD 0)) y.model_name) =
      (exportTemplate db).models.map (fun y =>
        modelKey y.provider_name y.model_name) := by
    refine List.map_congr_left ?_
    intro y hy
    obtain ⟨m, p, q, hm, hp, hqmem, hye, hgp, hqn, hl⟩ :=
      rt_model_resolve db hwf hfk hy
    rw [hl, Option.getD_some, rt_provName_q db (rtDbM db) rfl hqmem, hqn,
      ← rt_y_pn db hye hgp]
  rw [h1]
  exact h2.trans (List.Perm.of_eq (h3.trans h4))

theorem rt_mm_keys_nodup (db : DB) (hwf : WF db)
    (hfk : ∀ m ∈ db.models, (getProviderById db m.provider_id).isSome = true)
    (hkeys : (db.models.map (fun m =>
      modelKey (provNameOfId db m.provider_id) m.model_name)).Nodup) :
    ((rtMm db).map Prod.fst).Nodup :=
  (rt_modelMap_keys_eq db hwf hfk).nodup_iff.mpr (rt_mkeys_str_nodup db hkeys)

theorem rt_aroles_perm (db : DB) :
    ((exportTemplate db).agents.map AgentY.agent_role).Perm
      (db.agents.map AgentRole.agent_role) := by
  refine ((export_agents_perm db).map _).trans ?_
  rw [List.map_map]
  exact List.Perm.of_eq rfl

theorem rt_stage_agents (db : DB) (hwf : WF db) :
    importAgents (rtMm db) (exportTemplate db).agents (rtDbM db) =
      (rtDbA db, none) := by
  rw [importAgents_fresh (rtMm db) _ _ ?_ ?_ ?_]
  · rfl
  · intro y hy
    obtain ⟨r, hr, hye⟩ := rt_mem_ays db hy
    rw [hye]
    exact hwf.agentRolesNe r hr
  · exact (rt_aroles_perm db).nodup_iff.mpr hwf.agentRoles
  · intro y _ r hr
    exact absurd hr (List.not_mem_nil r)

theorem rt_tnames_perm (db : DB) :
    ((exportTemplate db).tasks.map TaskY.task_name).Perm
      (db.tasks.map Task.task_name) := by
  refine ((export_tasks_perm db).map _).trans ?_
  rw [List.map_map]
  exact List.Perm.of_eq rfl

theorem rt_stage_tasks (db : DB) (hwf : WF db) :
    importTasks (exportTemplate db).tasks (rtDbA db) = (rtDbF db, none) := by
  rw [importTasks_fresh _ _ ((rt_tnames_perm db).nodup_iff.mpr hwf.taskNames) ?_]
  · rfl
  · intro y _ t ht
    exact absurd ht (List.not_mem_nil t)

/-- The whole import of an exported template into an empty store commits the
four stages' rows and reports no error. -/
theorem rt_import_eq (db : DB) (hwf : WF db)
    (hfk : ∀ m ∈ db.models, (getProviderById db m.provider_id).isSome = true)
    (hkeys : (db.models.map (fun m =>
      modelKey (provNameOfId db m.provider_id) m.model_name)).Nodup) :
    importTemplate (exportTemplate db) emptyDB true = (rtDbF db, none) := by
  have hw : wipeAll emptyDB = emptyDB := rfl
  have hp := rt_stage_providers db hwf
  have hm := rt_stage_models db hwf hfk hkeys
  simp only [rtPm] at hm
  have hag := rt_stage_agents db hwf
  simp only [rtPm, rtMm] at hag
  have ht := rt_stage_tasks db hwf
  simp only [importTemplate, if_true, hw, hp, hm, hag, ht]

theorem rt_provView (db : DB) (hwf : WF db) :
    provView (rtDbF db) = provView db := by
  have h1 : (rtDbF db).providers.map provFields =
      (exportTemplate db).providers.map (fun y =>
        (y.provider_name, y.display_name, y.extra_info)) := by
    have ha : (rtDbF db).providers = provRowsFrom 1 (exportTemplate db).providers :=
      rfl
    rw [ha, provRowsFrom_map_fields]
    refine List.map_congr_left ?_
    intro y hy
    obtain ⟨p, hp, rfl⟩ := rt_mem_pys db hy
    show (p.provider_name, safeDisplayName (some p.display_name) p.provider_name,
      p.extra_info) = (p.provider_name, p.display_name, p.extra_info)
    rw [safeDisplayName_stored _ _ (hwf.provDisplay p hp)]
  unfold provView
  rw [h1]
  refine Multiset.coe_eq_coe.mpr ?_
  refine ((export_providers_perm db).map _).trans ?_
  rw [List.map_map]
  exact List.Perm.of_eq rfl

theorem rt_modelView (db : DB) (hwf : WF db)
    (hfk : ∀ m ∈ db.models, (getProviderById db m.provider_id).isSome = true) :
    modelView (rtDbF db) = modelView db := by
  have h1 : (rtDbF db).models.map (fun m =>
      (provNameOfId (rtDbF db) m.provider_id, m.model_name, m.display_name,
        m.extra_info, m.supports_reasoning)) =
      (exportTemplate db).models.map (fun y =>
        (provNameOfId (rtDbF db) ((provLookup (rtPm db) y.provider_name).getD 0),
          y.model_name, y.display_name, y.extra_info, y.supports_reasoning)) := by
    have ha : (rtDbF db).models =
        modelRowsFrom 1 (rtPm db) (exportTemplate db).models := rfl
    rw [ha]
    exact modelRowsFrom_view (rtPm db)
      (fun pid mn dn ei sr => (provNameOfId (rtDbF db) pid, mn, dn, ei, sr)) _ 1
  have h2 : (exportTemplate db).models.map (fun y =>
      (provNameOfId (rtDbF db) ((provLookup (rtPm db) y.provider_name).getD 0),
        y.model_name, y.display_name, y.extra_info, y.supports_reasoning)) =
      (exportTemplate db).models.map (fun y =>
        (y.provider_name, y.model_name, y.display_name, y.extra_info,
          y.supports_reasoning)) := by
    refine List.map_congr_left ?_
    intro y hy
    obtain ⟨m, p, q, hm, hp, hqmem, hye, hgp, hqn, hl⟩ :=
      rt_model_resolve db hwf hfk hy
    rw [hl, Option.getD_some, rt_provName_q db (rtDbF db) rfl hqmem, hqn,
      ← rt_y_pn db hye hgp]
  unfold modelView
  rw [h1, h2]
  refine Multiset.coe_eq_coe.mpr ?_
  refine ((export_models_perm db).map _).trans ?_
  rw [List.map_map]
  exact List.Perm.of_eq rfl

theorem rt_taskView (db : DB) : taskView (rtDbF db) = taskView db := by
  have h1 : (rtDbF db).tasks.map (fun t => (t.task_name, t.task_prompt)) =
      (exportTemplate db).tasks.map (fun y => (y.task_name, y.task_prompt)) := by
    have ha : (rtDbF db).tasks = taskRowsFrom 1 (exportTemplate db).tasks := rfl
    rw [ha]
    exact taskRowsFrom_view _ 1
  unfold taskView
  rw [h1]
  refine Multiset.coe_eq_coe.mpr ?_
  refine ((export_tasks_perm db).map _).trans ?_
  rw [List.map_map]
  exact List.Perm.of_eq rfl

/-- The re-imported agent's model reference points at the model row carrying
the same natural key the original reference pointed at (and is null exactly
when the original reference chain was broken). -/
theorem rt_agent_ref (db : DB) (hwf : WF db)
    (hfk : ∀ m ∈ db.models, (getProviderById db m.provider_id).isSome = true)
    (hpn : ∀ p ∈ db.providers, p.provider_name ≠ "")
    (hmn : ∀ m ∈ db.models, m.model_name ≠ "")
    (hkeys : (db.models.map (fun m =>
      modelKey (provNameOfId db m.provider_id) m.model_name)).Nodup)
    (r : AgentRole) (_hr : r ∈ db.agents) :
    agentRefKey (rtDbF db) (resolveRef (rtMm db) (exportAgentY db r)) =
      agentRefKey db r.model_id := by
  rcases hmid : r.model_id with _ | mid
  · have hy : (exportAgentY db r).provider_name = none := by
      show (((r.model_id.bind (getModelById db)).bind
        (fun mo => getProviderById db mo.provider_id)).map (·.provider_name)) = none
      rw [hmid]
      rfl
    have hres : resolveRef (rtMm db) (exportAgentY db r) = none := by
      unfold resolveRef
      rw [hy]
      rfl
    rw [hres]
    rfl
  · rcases hgm : getModelById db mid with _ | m
    · have hy : (exportAgentY db r).model_name = none := by
        show ((r.model_id.bind (getModelById db)).map (·.model_name)) = none
        rw [hmid]
        show ((getModelById db mid).map (·.model_name)) = none
        rw [hgm]
        rfl
      have hres : resolveRef (rtMm db) (exportAgentY db r) = none := by
        unfold resolveRef
        rw [hy]
        simp [truthy]
      rw [hres]
      simp [agentRefKey, hgm]
    · have hmmem : m ∈ db.models := List.mem_of_find?_eq_some hgm
      obtain ⟨p, hgp⟩ := Option.isSome_iff_exists.mp (hfk m hmmem)
      have hpmem : p ∈ db.providers := List.mem_of_find?_eq_some hgp
      have hypn : (exportAgentY db r).provider_name = some p.provider_name := by
        show (((r.model_id.bind (getModelById db)).bind
          (fun mo => getProviderById db mo.provider_id)).map (·.provider_name)) = _
        rw [hmid]
        show (((getModelById db mid).bind
          (fun mo => getProviderById db mo.provider_id)).map (·.provider_name)) = _
        rw [hgm]
        show ((getProviderById db m.provider_id).map (·.provider_name)) = _
        rw [hgp]
        rfl
      have hymn : (exportAgentY db r).model_name = some m.model_name := by
        show ((r.model_id.bind (getModelById db)).map (·.model_name)) = _
        rw [hmid]
        show ((getModelById db mid).map (·.model_name)) = _
        rw [hgm]
        rfl
      have hymem : exportModelY db m ∈ (exportTemplate db).models :=
        (export_models_perm db).mem_iff.mpr (List.mem_map_of_mem _ hmmem)
      obtain ⟨m0, p0, q, hm0, hp0, hqmem, hy0e, hgp0, hqn0, hl0⟩ :=
        rt_model_resolve db hwf hfk hymem
      have hpq : q.provider_name = p.provider_name := by
        have e1 : provNameOfId db m.provider_id = provNameOfId db m0.provider_id :=
          congrArg ModelY.provider_name hy0e
        rw [provNameOfId, hgp, provNameOfId, hgp0] at e1
        simp only [Option.map_some'] at e1
        exact hqn0.trans (Option.some.inj e1).symm
      obtain ⟨mr, hmr, hmrp, hmrn⟩ :=
        modelRowsFrom_mem (rtPm db) (exportTemplate db).models 1
          (exportModelY db m) hymem
      rw [hl0, Option.getD_some] at hmrp
      have hpair : (modelKey (provNameOfId (rtDbM db) mr.provider_id) mr.model_name,
          mr.id) ∈ rtMm db := by
        have hj : mr ∈ (rtDbM db).models := hmr
        have h1 := List.mem_map_of_mem (fun m =>
          let p := getProviderById (rtDbM db) m.provider_id
          (⟨m.id, m.provider_id, m.model_name, m.display_name, m.extra_info,
            m.supports_reasoning, p.map (·.provider_name),
            p.map (·.display_name)⟩ : ModelJoinRow)) hj
        have h2 := (sortBy_perm modelJoinLe _).mem_iff.mpr h1
        exact List.mem_map_of_mem
          (fun m => (modelKey m.provider_name m.model_name, m.id)) h2
      have hkey : modelKey (provNameOfId (rtDbM db) mr.provider_id) mr.model_name =
          modelKey (some p.provider_name) m.model_name := by
        rw [hmrp, rt_provName_q db (rtDbM db) rfl hqmem, hpq, hmrn]
        rfl
      have hres : resolveRef (rtMm db) (exportAgentY db r) = some mr.id := by
        unfold resolveRef
        rw [hypn, hymn]
        have htp : truthy (some p.provider_name) = true := by
          simp [truthy, hpn p hpmem]
        have htm : truthy (some m.model_name) = true := by
          simp [truthy, hmn m hmmem]
        rw [htp, htm]
        have hget := mapGet_of_nodup (rtMm db) _
          (rt_mm_keys_nodup db hwf hfk hkeys) hpair
        rw [hkey] at hget
        exact hget
      rw [hres]
      have hgmr : getModelById (rtDbF db) mr.id = some mr := by
        refine getModelById_of_mem (rtDbF db) ?_ hmr
        show ((rtDbF db).models.map Model.id).Nodup
        exact rtDbM_mids_nodup db
      have hgq : getProviderById (rtDbF db) mr.provider_id = some q := by
        rw [hmrp]
        refine getProviderById_of_mem (rtDbF db) ?_ hqmem
        show ((rtDbF db).providers.map Provider.id).Nodup
        exact rtDbP_ids_nodup db
      simp only [agentRefKey, hgmr, hgq, hgm, hgp]
      rw [hpq, hmrn]
      rfl

theorem rt_agentView (db : DB) (hwf : WF db)
    (hfk : ∀ m ∈ db.models, (getProviderById db m.provider_id).isSome = true)
    (hpn : ∀ p ∈ db.providers, p.provider_name ≠ "")
    (hmn : ∀ m ∈ db.models, m.model_name ≠ "")
    (hkeys : (db.models.map (fun m =>
      modelKey (provNameOfId db m.provider_id) m.model_name)).Nodup) :
    agentView (rtDbF db) = agentView db := by
  have h1 : (rtDbF db).agents.map (fun r =>
      (⟨r.agent_role, r.agent_description, r.allowed_tools,
        r.default_developer_prompt, r.default_user_prompt,
        agentRefKey (rtDbF db) r.model_id, r.reasoning_level,
        r.tool_choice⟩ : AgentNat)) =
      (exportTemplate db).agents.map (fun y =>
        (⟨y.agent_role, y.agent_description,
          ensureDefaultTool (some y.allowed_tools), y.default_developer_prompt,
          y.default_user_prompt, agentRefKey (rtDbF db) (resolveRef (rtMm db) y),
          orDefault (some y.reasoning_level) "medium",
          orDefault (some y.tool_choice) "auto"⟩ : AgentNat)) := by
    have ha : (rtDbF db).agents =
        agentRowsFrom 1 (rtMm db) (exportTemplate db).agents := rfl
    rw [ha]
    exact agentRowsFrom_view (rtMm db)
      (fun role desc tools ddp dup mid rl tc =>
        (⟨role, desc, tools, ddp, dup, agentRefKey (rtDbF db) mid, rl, tc⟩ :
          AgentNat)) _ 1
  unfold agentView
  rw [h1]
  refine Multiset.coe_eq_coe.mpr ?_
  refine ((export_agents_perm db).map _).trans ?_
  rw [List.map_map]
  refine List.Perm.of_eq (List.map_congr_left ?_)
  intro r hr
  show (⟨r.agent_role, r.agent_description,
      ensureDefaultTool (some r.allowed_tools), r.default_developer_prompt,
      r.default_user_prompt,
      agentRefKey (rtDbF db) (resolveRef (rtMm db) (exportAgentY db r)),
      orDefault (some r.reasoning_level) "medium",
      orDefault (some r.tool_choice) "auto"⟩ : AgentNat) = _
  rw [ensureDefaultTool_of_mem (hwf.agentToolsSentinel r hr),
    orDefault_some_ne _ (hwf.agentRL r hr), orDefault_some_ne _ (hwf.agentTC r hr),
    rt_agent_ref db hwf hfk hpn hmn hkeys r hr]

/-- A reachable state with a dangling model reference: a provider and a
model referencing it are created, then the provider is deleted (deletion
does not cascade to the models table). -/
def dbRTce : DB := ⟨[], [⟨1, 1, "m", "m", "", true⟩], [], [], 2, 2, 1, 1⟩

/-- C1 counterexample: dbRTce is reachable by the entity managers, but its
export renders the orphaned model's provider as null, so re-importing
aborts the model loop with an error and reproduces none of the models;
the round trip fails without further assumptions on the state. -/
theorem round_trip_counterexample :
    Reachable dbRTce ∧
    (importTemplate (exportTemplate dbRTce) emptyDB true).2 =
      some "[import][model] Provider not found for \"null\"" ∧
    ¬ equivDB (importTemplate (exportTemplate dbRTce) emptyDB true).1 dbRTce := by
  refine ⟨?_, rfl, by decide⟩
  have e1 : createOrUpdateProvider emptyDB ⟨none, "p", some "p", some ""⟩ =
      .ok ⟨[⟨1, "p", "p", ""⟩], [], [], [], 2, 1, 1, 1⟩ := rfl
  have h1 := Reachable.provUpsert Reachable.empty e1
  have e2 : createOrUpdateModel ⟨[⟨1, "p", "p", ""⟩], [], [], [], 2, 1, 1, 1⟩
      ⟨none, 1, "m", some "m", some "", some true⟩ =
      .ok ⟨[⟨1, "p", "p", ""⟩], [⟨1, 1, "m", "m", "", true⟩], [], [], 2, 2, 1, 1⟩ :=
    rfl
  have h2 := Reachable.modelUpsert h1 e2
  have h3 := Reachable.provDelete 1 h2
  have e3 : deleteProvider
      ⟨[⟨1, "p", "p", ""⟩], [⟨1, 1, "m", "m", "", true⟩], [], [], 2, 2, 1, 1⟩ 1 =
      dbRTce := rfl
  exact e3 ▸ h3

/-- C1 (amended): on every reachable state whose models all reference an
existing provider, whose provider and model names are nonempty, and whose
provider_name:model_name join keys are pairwise distinct, exporting a
template and importing it into an empty store raises no error and
reproduces the same multiset of Providers, Models, Agent roles and Tasks,
up to internal id reassignment (agent tool lists, having been normalized on
write, round-trip unchanged). -/
theorem export_import_round_trip (db : DB) (hre : Reachable db)
    (hfk : ∀ m ∈ db.models, (getProviderById db m.provider_id).isSome = true)
    (hpn : ∀ p ∈ db.providers, p.provider_name ≠ "")
    (hmn : ∀ m ∈ db.models, m.model_name ≠ "")
    (hkeys : (db.models.map (fun m =>
      modelKey (provNameOfId db m.provider_id) m.model_name)).Nodup) :
    (importTemplate (exportTemplate db) emptyDB true).2 = none ∧
    equivDB (importTemplate (exportTemplate db) emptyDB true).1 db := by
  have hwf := wf_of_reachable hre
  rw [rt_import_eq db hwf hfk hkeys]
  exact ⟨rfl, rt_provView db hwf, rt_modelView db hwf hfk,
    rt_agentView db hwf hfk hpn hmn hkeys, rt_taskView db⟩

/-- A small reachable state touching all four tables. -/
def dbRT : DB :=
  ⟨[⟨1, "openai", "openai", ""⟩], [⟨1, 1, "gpt-4", "gpt-4", "", true⟩],
    [⟨1, "dev", "d", ["x", "set_work_completed"], "dp", "up", some 1, "high",
      "auto"⟩],
    [⟨1, "t1", "p1"⟩], 2, 2, 2, 2⟩

theorem export_import_round_trip_witness :
    (importTemplate (exportTemplate dbRT) emptyDB true).2 = none ∧
    equivDB (importTemplate (exportTemplate dbRT) emptyDB true).1 dbRT := by
  refine export_import_round_trip dbRT ?_ (by decide) (by decide) (by decide)
    (by decide)
  have e1 : createOrUpdateProvider emptyDB ⟨none, "openai", some "openai", some ""⟩ =
      .ok ⟨[⟨1, "openai", "openai", ""⟩], [], [], [], 2, 1, 1, 1⟩ := rfl
  have h1 := Reachable.provUpsert Reachable.empty e1
  have e2 : createOrUpdateModel ⟨[⟨1, "openai", "openai", ""⟩], [], [], [], 2, 1, 1, 1⟩
      ⟨none, 1, "gpt-4", some "gpt-4", some "", some true⟩ =
      .ok ⟨[⟨1, "openai", "openai", ""⟩], [⟨1, 1, "gpt-4", "gpt-4", "", true⟩],
        [], [], 2, 2, 1, 1⟩ := rfl
  have h2 := Reachable.modelUpsert h1 e2
  have e3 : setAgentDetails
      ⟨[⟨1, "openai", "openai", ""⟩], [⟨1, 1, "gpt-4", "gpt-4", "", true⟩],
        [], [], 2, 2, 1, 1⟩
      ⟨"dev", some "d", some ["x"], some "dp", some "up", some 1, some "high",
        some "auto"⟩ =
      .ok ⟨[⟨1, "openai", "openai", ""⟩], [⟨1, 1, "gpt-4", "gpt-4", "", true⟩],
        [⟨1, "dev", "d", ["x", "set_work_completed"], "dp", "up", some 1, "high",
          "auto"⟩], [], 2, 2, 2, 1⟩ := rfl
  have h3 := Reachable.agentUpsert h2 e3
  have e4 : createTask
      ⟨[⟨1, "openai", "openai", ""⟩], [⟨1, 1, "gpt-4", "gpt-4", "", true⟩],
        [⟨1, "dev", "d", ["x", "set_work_completed"], "dp", "up", some 1, "high",
          "auto"⟩], [], 2, 2, 2, 1⟩ "t1" "p1" = .ok dbRT := rfl
  exact Reachable.taskCreate h3 e4

end Solvin
